import Mathlib

/-!
Verification development for the virtual-connection I/O core of an
event-driven network runtime (src/iocore/net/UnixNetVConnection.cc).

The state of one UnixNetVConnection, of its NetHandler bookkeeping, and of
the buffers attached to its two VIOs is embedded as plain data.  The
continuation a VIO notifies is external code, so a signal to it is modelled
by an arbitrary state-transforming oracle; the kernel socket operations and
the byte buffer are external collaborators modelled from their specified
interfaces.  Every observable action of a pass (an event delivered, a
syscall issued, a polling-descriptor operation) is recorded in a trace of
observations so that theorems can speak about what a code path did.
-/

namespace UnixNet

/-- Errno value for EAGAIN on the modelled platform (errors are returned to
the core as negative errno). -/
def EAGAIN : Int := 11

/-- Errno value for ENOTCONN. -/
def ENOTCONN : Int := 107

/-- Errno value for ECONNRESET. -/
def ECONNRESET : Int := 104

/-- Event code VC_EVENT_ERROR (equal to EVENT_ERROR). -/
def VC_EVENT_ERROR : Nat := 3

/-- Event code VC_EVENT_READ_READY. -/
def VC_EVENT_READ_READY : Nat := 100

/-- Event code VC_EVENT_WRITE_READY. -/
def VC_EVENT_WRITE_READY : Nat := 101

/-- Event code VC_EVENT_READ_COMPLETE. -/
def VC_EVENT_READ_COMPLETE : Nat := 102

/-- Event code VC_EVENT_WRITE_COMPLETE. -/
def VC_EVENT_WRITE_COMPLETE : Nat := 103

/-- Event code VC_EVENT_EOS. -/
def VC_EVENT_EOS : Nat := 104

/-- Event code VC_EVENT_INACTIVITY_TIMEOUT. -/
def VC_EVENT_INACTIVITY_TIMEOUT : Nat := 105

/-- Event code VC_EVENT_ACTIVE_TIMEOUT. -/
def VC_EVENT_ACTIVE_TIMEOUT : Nat := 106

/-- Shutdown-state bit for the read half (f.shutdown bitmask). -/
def NET_VC_SHUTDOWN_READ : Nat := 1

/-- Shutdown-state bit for the write half (f.shutdown bitmask). -/
def NET_VC_SHUTDOWN_WRITE : Nat := 2

/-- Polling interest for readability. -/
def EVENTIO_READ : Nat := 1

/-- Polling interest for writability. -/
def EVENTIO_WRITE : Nat := 2

/-- NET_MAX_IOV: compile-time bound on the iovec array (UIO_MAXIOV fallback 16). -/
def NET_MAX_IOV : Nat := 16

/-- The op field of a VIO (VIO::NONE, VIO::READ, VIO::WRITE). -/
inductive Op where
  | none : Op
  | read : Op
  | write : Op
deriving DecidableEq

/-- Modelled from the spec: the opaque linked-block byte buffer attached to
a VIO, reduced to its interface quantities.  The writer capability exposes
write_avail, the reader capability exposes read_avail; valid records
whether the accessor is attached (writer_for / reader_for) or cleared. -/
structure BufSt where
  valid : Bool
  readAvail : Int
  writeAvail : Int
deriving DecidableEq

/-- Modelled from the spec: writer fill(r) makes r appended bytes readable,
shrinking the append region. -/
def bufFill (b : BufSt) (r : Int) : BufSt :=
  { b with readAvail := b.readAvail + r, writeAvail := b.writeAvail - r }

/-- Modelled from the spec: reader consume(r) removes r bytes from the
consume region. -/
def bufConsume (b : BufSt) (r : Int) : BufSt :=
  { b with readAvail := b.readAvail - r }

/-- Modelled from the spec: buffer.clear() detaches the accessor. -/
def bufClear : BufSt :=
  { valid := false, readAvail := 0, writeAvail := 0 }

/-- One VIO: op, nbytes, ndone, the notified continuation (by identity,
none = NULL), the mutex (by identity, none = NULL), and its buffer. -/
structure VioSt where
  op : Op
  nbytes : Int
  ndone : Int
  cont : Option Nat
  mutexId : Option Nat
  buf : BufSt
deriving DecidableEq

/-- Modelled from the spec: VIO::ntodo() = nbytes - ndone for READ/WRITE,
0 when op is NONE (the VIO class is not part of this source file). -/
def VioSt.ntodo (v : VioSt) : Int :=
  if v.op = Op.read ∨ v.op = Op.write then v.nbytes - v.ndone else 0

/-- NetState: per-direction state of a VConnection. -/
structure NetSt where
  vio : VioSt
  enabled : Bool
  triggered : Bool
  inEnabledList : Bool
deriving DecidableEq

/-- The UnixNetVConnection fields the claims are about. -/
structure VcSt where
  read : NetSt
  write : NetSt
  closed : Int
  recursion : Int
  lerrno : Int
  shutdown : Nat
  thread : Option Nat
  vcMutexId : Nat
  inactivityTimeoutIn : Int
  activeTimeoutIn : Int
  nextInactivityTimeoutAt : Int
  nextActivityTimeoutAt : Int
  wbeEvent : Nat
deriving DecidableEq

/-- The NetHandler bookkeeping for this single VC: the mutex holder thread
and whether the VC sits on each intrusive list. -/
structure NhSt where
  holder : Option Nat
  openList : Bool
  copList : Bool
  readReady : Bool
  writeReady : Bool
  readEnable : Bool
  writeEnable : Bool
  keepAliveQueue : Bool
  activeQueue : Bool
deriving DecidableEq

/-- The whole modelled state: the VC, its NetHandler view, whether vc->nh
is NULL, whether the VC was freed, and whether a release assertion fired. -/
structure World where
  vc : VcSt
  nh : NhSt
  nhNull : Bool
  freed : Bool
  crashed : Bool
deriving DecidableEq

/-- A direction selector. -/
inductive Dir where
  | read : Dir
  | write : Dir
deriving DecidableEq

/-- Observable actions of a pass: an event signalled toward a continuation
(none = the VIO had no continuation), polling-descriptor operations (the
interest is signed: negative removes that interest), socket syscalls with
their attempted size and result, and the cross-thread wake hook. -/
inductive Obs where
  | delivered : Dir → Option Nat → Nat → Obs
  | epModify : Int → Obs
  | epRefresh : Int → Obs
  | epStop : Obs
  | sysRead : Int → Int → Obs
  | sysWrite : Int → Int → Obs
  | sockShutdown : Nat → Obs
  | signalHook : Obs
deriving DecidableEq

/-- A state paired with the trace of observations it produced. -/
abbrev Step := World × List Obs

/-- The continuation oracle: handleEvent of the continuation with the given
identity, receiving an event code, transforming the modelled state. -/
abbrev Handler := Nat → Nat → World → World

/-- True exactly on delivered observations for the given direction whose
event is one of the two timeout events. -/
def Obs.isTimeoutDeliv (d : Dir) : Obs → Bool
  | Obs.delivered d2 _ ev =>
      d2 = d ∧ (ev = VC_EVENT_INACTIVITY_TIMEOUT ∨ ev = VC_EVENT_ACTIVE_TIMEOUT)
  | _ => false

/-- True exactly on read/readv syscall observations. -/
def Obs.isSysRead : Obs → Bool
  | Obs.sysRead _ _ => true
  | _ => false

/-- The continuation an observation was signalled toward (none otherwise). -/
def Obs.target : Obs → Option Nat
  | Obs.delivered _ c _ => c
  | _ => Option.none

/-- read_reschedule (src 50-58): refresh read interest, then put the VC on
or off the read-ready list according to triggered and enabled. -/
def read_reschedule (w : World) : Step :=
  (if w.vc.read.triggered ∧ w.vc.read.enabled then
     { w with nh := { w.nh with readReady := true } }
   else
     { w with nh := { w.nh with readReady := false } },
   [Obs.epRefresh (Int.ofNat EVENTIO_READ)])

/-- write_reschedule (src 60-68), mirror of read_reschedule. -/
def write_reschedule (w : World) : Step :=
  (if w.vc.write.triggered ∧ w.vc.write.enabled then
     { w with nh := { w.nh with writeReady := true } }
   else
     { w with nh := { w.nh with writeReady := false } },
   [Obs.epRefresh (Int.ofNat EVENTIO_WRITE)])

/-- net_activity (src 70-92, timeout-field variant): slide the inactivity
deadline to now + inactivity_timeout_in, or disarm it when unconfigured. -/
def net_activity (now : Int) (w : World) : World :=
  if w.vc.inactivityTimeoutIn ≠ 0 then
    { w with vc := { w.vc with
        nextInactivityTimeoutAt := now + w.vc.inactivityTimeoutIn } }
  else
    { w with vc := { w.vc with nextInactivityTimeoutAt := 0 } }

/-- UnixNetVConnection::free (src 1311-1353): clear fields for reuse and
return the storage; modelled by resetting the embedded fields and raising
the freed flag. -/
def vcFree (w : World) : World :=
  { w with
    vc := { w.vc with
      read := { w.vc.read with
        triggered := false, enabled := false,
        vio := { w.vc.read.vio with
          cont := Option.none, mutexId := Option.none } },
      write := { w.vc.write with
        triggered := false, enabled := false,
        vio := { w.vc.write.vio with
          cont := Option.none, mutexId := Option.none } },
      closed := 0 },
    nhNull := true,
    freed := true }

/-- close_UnixNetVConnection (src 97-140): stop the polling binding,
release-assert thread affinity, disarm both timeouts, detach from every
NetHandler list, then free the VC. -/
def close_UnixNetVConnection (w : World) (t : Option Nat) : Step :=
  if w.vc.thread ≠ t then ({ w with crashed := true }, [Obs.epStop])
  else
    let w1 : World := { w with vc := { w.vc with
      nextInactivityTimeoutAt := 0, nextActivityTimeoutAt := 0,
      inactivityTimeoutIn := 0, activeTimeoutIn := 0 } }
    let w2 : World :=
      if w1.nhNull then w1
      else
        { w1 with
          vc := { w1.vc with
            read := { w1.vc.read with inEnabledList := false },
            write := { w1.vc.write with inEnabledList := false } },
          nh := { w1.nh with
            openList := false, copList := false,
            readReady := false, writeReady := false,
            readEnable :=
              if w1.vc.read.inEnabledList then false else w1.nh.readEnable,
            writeEnable :=
              if w1.vc.write.inEnabledList then false else w1.nh.writeEnable,
            keepAliveQueue := false, activeQueue := false } }
    (vcFree w2, [Obs.epStop])

/-- Common tail of read_signal_and_update and write_signal_and_update
(src 166-173 and 197-204, textually identical in the source): undo the
recursion increment and, when the counter returned to zero with the closed
flag set, close the VC inline and report EVENT_DONE. -/
def signalUpdateTail (d : Dir) (c : Option Nat) (ev : Nat) (w2 : World) :
    Step × Bool :=
  let w3 : World := { w2 with vc := { w2.vc with recursion := w2.vc.recursion - 1 } }
  if w3.vc.recursion = 0 ∧ w3.vc.closed ≠ 0 then
    let p := close_UnixNetVConnection w3 w3.vc.thread
    ((p.1, Obs.delivered d c ev :: p.2), true)
  else
    ((w3, [Obs.delivered d c ev]), false)

/-- read_signal_and_update (src 145-174): bump recursion, call the read
VIO continuation with the event — or, with a null continuation, convert
EOS/ERROR/timeout events into closed = 1 (anything else is a release
assertion failure) — then run the common tail. -/
def read_signal_and_update (h : Handler) (ev : Nat) (w : World) :
    Step × Bool :=
  let w1 : World := { w with vc := { w.vc with recursion := w.vc.recursion + 1 } }
  match w1.vc.read.vio.cont with
  | Option.some c => signalUpdateTail Dir.read (Option.some c) ev (h c ev w1)
  | Option.none =>
      if ev = VC_EVENT_EOS ∨ ev = VC_EVENT_ERROR ∨
         ev = VC_EVENT_ACTIVE_TIMEOUT ∨ ev = VC_EVENT_INACTIVITY_TIMEOUT then
        signalUpdateTail Dir.read Option.none ev
          { w1 with vc := { w1.vc with closed := 1 } }
      else
        (({ w1 with crashed := true },
          [Obs.delivered Dir.read Option.none ev]), true)

/-- write_signal_and_update (src 176-205), mirror of
read_signal_and_update for the write VIO. -/
def write_signal_and_update (h : Handler) (ev : Nat) (w : World) :
    Step × Bool :=
  let w1 : World := { w with vc := { w.vc with recursion := w.vc.recursion + 1 } }
  match w1.vc.write.vio.cont with
  | Option.some c => signalUpdateTail Dir.write (Option.some c) ev (h c ev w1)
  | Option.none =>
      if ev = VC_EVENT_EOS ∨ ev = VC_EVENT_ERROR ∨
         ev = VC_EVENT_ACTIVE_TIMEOUT ∨ ev = VC_EVENT_INACTIVITY_TIMEOUT then
        signalUpdateTail Dir.write Option.none ev
          { w1 with vc := { w1.vc with closed := 1 } }
      else
        (({ w1 with crashed := true },
          [Obs.delivered Dir.write Option.none ev]), true)

/-- read_signal_done (src 207-217): clear read enabled, signal, and unless
the signal closed the VC, reschedule. -/
def read_signal_done (h : Handler) (ev : Nat) (w : World) : Step × Bool :=
  let w1 : World := { w with vc := { w.vc with
    read := { w.vc.read with enabled := false } } }
  let p := read_signal_and_update h ev w1
  if p.2 then (p.1, true)
  else
    let q := read_reschedule p.1.1
    ((q.1, p.1.2 ++ q.2), false)

/-- write_signal_done (src 219-229), mirror for the write side. -/
def write_signal_done (h : Handler) (ev : Nat) (w : World) : Step × Bool :=
  let w1 : World := { w with vc := { w.vc with
    write := { w.vc.write with enabled := false } } }
  let p := write_signal_and_update h ev w1
  if p.2 then (p.1, true)
  else
    let q := write_reschedule p.1.1
    ((q.1, p.1.2 ++ q.2), false)

/-- read_signal_error (src 231-236): record lerrno and signal
VC_EVENT_ERROR through read_signal_done. -/
def read_signal_error (h : Handler) (e : Int) (w : World) : Step × Bool :=
  read_signal_done h VC_EVENT_ERROR
    { w with vc := { w.vc with lerrno := e } }

/-- write_signal_error (src 238-243), mirror for the write side. -/
def write_signal_error (h : Handler) (e : Int) (w : World) : Step × Bool :=
  write_signal_done h VC_EVENT_ERROR
    { w with vc := { w.vc with lerrno := e } }

/-- Modelled from the spec: read_disable is declared in this repository's
P_UnixNet.h, which is not under src; per spec section 4.4 a disable removes
the VC from the ready list, clears enabled, and drops the polling interest
for the direction. -/
def read_disable (w : World) : Step :=
  ({ w with
     vc := { w.vc with read := { w.vc.read with enabled := false } },
     nh := { w.nh with readReady := false } },
   [Obs.epModify (-(Int.ofNat EVENTIO_READ))])

/-- Modelled from the spec: write_disable, mirror of read_disable. -/
def write_disable (w : World) : Step :=
  ({ w with
     vc := { w.vc with write := { w.vc.write with enabled := false } },
     nh := { w.nh with writeReady := false } },
   [Obs.epModify (-(Int.ofNat EVENTIO_WRITE))])

/-- Modelled from the spec: socketManager.read (kernel abstraction, spec
section 6) — POSIX read returns the attempted length capped by what the
socket can deliver, or a negative errno carried through unchanged. -/
def kernelRead (avail attempted : Int) : Int :=
  if avail < 0 then avail else min avail attempted

/-- Modelled from the spec: socketManager.write, same POSIX convention. -/
def kernelWrite (avail attempted : Int) : Int :=
  if avail < 0 then avail else min avail attempted

/-- The iovec-building inner while loop of read_from_net (src 296-312):
walk the writer block chain, skip blocks without space, cap the last entry
at togo (the remaining amount of this attempt) and break without advancing
the block, bounded by NET_MAX_IOV entries.  Returns the attempted total and
the block chain as left for the next outer iteration. -/
def fillIovs : List Int → Int → Nat → Int × List Int
  | [], _, _ => (0, [])
  | a :: bs, togo, niov =>
      if NET_MAX_IOV ≤ niov then (0, a :: bs)
      else if a > 0 then
        let acap := if a > togo then togo else a
        if acap ≥ togo then (acap, a :: bs)
        else
          let rest := fillIovs bs (togo - acap) (niov + 1)
          (acap + rest.1, rest.2)
      else fillIovs bs togo niov

/-- The exit state of a vectored syscall loop: total (the source's
total_read / total_written variable, which already includes the last
attempted amount), the last attempted amount, and the last raw syscall
return. -/
structure LoopExit where
  total : Int
  ratt : Int
  last : Int
deriving DecidableEq

/-- The do/while vectored read loop of read_from_net (src 293-340): build
iovecs, issue one read/readv against the next kernel response from the
oracle list, add the attempted amount into total_read, and loop while the
call was fully satisfied and total_read is still short of toread.  Returns
none when the finite kernel oracle is exhausted before the loop exits. -/
def readLoop (toread : Int) : List Int → List Int → Int →
    Option (LoopExit × List Obs)
  | [], _, _ => Option.none
  | v :: vs, blocks, total =>
      let f := fillIovs blocks (toread - total) 0
      let r := kernelRead v f.1
      let total2 := total + f.1
      let o := Obs.sysRead f.1 r
      if f.1 ≠ 0 ∧ r = f.1 ∧ total2 < toread then
        match readLoop toread vs f.2 total2 with
        | Option.none => Option.none
        | Option.some (ex, tr) => Option.some (ex, o :: tr)
      else Option.some (⟨total2, f.1, r⟩, [o])

/-- The fold of a partial final syscall into one signed effective result
(src 342-348 and, textually identical, src 513-519): when the last call
returned less than it attempted, the effective result is the earlier
progress total - attempted, plus the last return when it was positive. -/
def foldSummary (total ratt r : Int) : Int :=
  if total ≠ ratt then
    (if r ≤ 0 then total - ratt else total - ratt + r)
  else r

/-- The nonpositive-result classification of read_from_net (src 349-367):
transient readiness returns silently off the ready list, EOS-like results
signal VC_EVENT_EOS, and any other negative result signals VC_EVENT_ERROR
with lerrno set to its magnitude. -/
def readClassify (h : Handler) (r : Int) (w : World) : Step :=
  if r = -EAGAIN ∨ r = -ENOTCONN then
    ({ w with
       vc := { w.vc with read := { w.vc.read with triggered := false } },
       nh := { w.nh with readReady := false } }, [])
  else if r = 0 ∨ r = -ECONNRESET then
    (read_signal_done h VC_EVENT_EOS
      { w with
        vc := { w.vc with read := { w.vc.read with triggered := false } },
        nh := { w.nh with readReady := false } }).1
  else
    (read_signal_error h (-r)
      { w with
        vc := { w.vc with read := { w.vc.read with triggered := false } } }).1

/-- The common exit of read_from_net (src 399-405): disable when the VIO is
done, the direction was disabled, or the writer has no more room; otherwise
reschedule. -/
def readFinish (w : World) : Step :=
  if w.vc.read.vio.ntodo ≤ 0 ∨ ¬w.vc.read.enabled ∨
     w.vc.read.vio.buf.writeAvail = 0 then
    read_disable w
  else read_reschedule w

/-- The syscall-loop stage of read_from_net (src 293-397): run the
vectored read loop for toread bytes, fold the result, classify a
nonpositive result, or fill the buffer, advance ndone, bump the inactivity
deadline and signal completion or readiness with lock-swap recovery; m0 is
the mutex the entry lock was taken on. -/
def readLoopStage (h : Handler) (now : Int) (sys blocks : List Int)
    (m0 : Option Nat) (toread : Int) (w : World) : Option Step :=
  match readLoop toread sys blocks 0 with
  | Option.none => Option.none
  | Option.some (ex, ltr) =>
      let r := foldSummary ex.total ex.ratt ex.last
      if r ≤ 0 then
        let p := readClassify h r w
        Option.some (p.1, ltr ++ p.2)
      else
        let w1 : World := { w with vc := { w.vc with
          read := { w.vc.read with vio := { w.vc.read.vio with
            ndone := w.vc.read.vio.ndone + r,
            buf := bufFill w.vc.read.vio.buf r } } } }
        let w2 := net_activity now w1
        if w2.vc.read.vio.ntodo ≤ 0 then
          let p := read_signal_done h VC_EVENT_READ_COMPLETE w2
          Option.some (p.1.1, ltr ++ p.1.2)
        else
          let q := read_signal_and_update h VC_EVENT_READ_READY w2
          if q.2 then Option.some (q.1.1, ltr ++ q.1.2)
          else if m0 ≠ q.1.1.vc.read.vio.mutexId then
            let p := read_reschedule q.1.1
            Option.some (p.1, ltr ++ q.1.2 ++ p.2)
          else
            let p := readFinish q.1.1
            Option.some (p.1, ltr ++ q.1.2 ++ p.2)

/-- read_from_net (src 249-406).  Inputs beyond the state: the continuation
oracle, whether the try-lock on the read VIO mutex succeeded, the executing
thread, the current time, the kernel response oracle, and a snapshot of the
writer block chain (write_avail of each block).  Returns none only when the
kernel oracle is exhausted mid-loop. -/
def read_from_net (h : Handler) (lockOk : Bool) (t : Nat) (now : Int)
    (sys blocks : List Int) (w : World) : Option Step :=
  if ¬lockOk then Option.some (read_reschedule w)
  else if w.vc.closed ≠ 0 then
    Option.some (close_UnixNetVConnection w (Option.some t))
  else if ¬w.vc.read.enabled ∨ w.vc.read.vio.op ≠ Op.read then
    Option.some (read_disable w)
  else
    let m0 := w.vc.read.vio.mutexId
    let ntodo := w.vc.read.vio.ntodo
    if ntodo ≤ 0 then Option.some (read_disable w)
    else
      let toread0 := w.vc.read.vio.buf.writeAvail
      let toread := if toread0 > ntodo then ntodo else toread0
      if toread ≠ 0 then readLoopStage h now sys blocks m0 toread w
      else Option.some (readFinish w)

/-- The result a subclass's sslStartHandShake hook can report (spec
section 4.6; the hook itself is outside this source file). -/
inductive SslRet where
  | eventError : SslRet
  | wantRead : SslRet
  | wantAccept : SslRet
  | wantConnect : SslRet
  | wantWrite : SslRet
  | eventDone : SslRet
  | other : SslRet
deriving DecidableEq

/-- The TLS collaborator's visible state for one write pass: whether the
handshake is already complete, and otherwise the hook's result and error. -/
structure SslSt where
  complete : Bool
  ret : SslRet
  err : Int
deriving DecidableEq

/-- The iovec-building inner while loop of load_buffer_and_write
(src 944-967): walk the reader block chain from the running offset,
skip already-consumed blocks (folding the offset forward), cap each entry
by what is still to write and break on a zero-length entry, bounded by
NET_MAX_IOV.  Returns this attempt's total and the chain-plus-offset as
left for the next outer iteration. -/
def writeFill : List Int → Int → Int → Nat → Int × (List Int × Int)
  | [], _, offset, _ => (0, ([], offset))
  | b :: bs, wavail, offset, niov =>
      if NET_MAX_IOV ≤ niov then (0, (b :: bs, offset))
      else
        let l := b - offset
        if l ≤ 0 then writeFill bs wavail (-l) niov
        else
          let l2 := if l > wavail then wavail else l
          if l2 = 0 then (0, (b :: bs, offset))
          else
            let rest := writeFill bs (wavail - l2) 0 (niov + 1)
            (l2 + rest.1, rest.2)

/-- The do/while vectored write loop of load_buffer_and_write
(src 940-993): build iovecs, issue one write/writev against the next
kernel response, and loop while the call was fully satisfied and
total_written is still short of towrite.  Returns none when the finite
kernel oracle is exhausted first. -/
def writeLoop (towrite : Int) : List Int → List Int → Int → Int →
    Option (LoopExit × List Obs)
  | [], _, _, _ => Option.none
  | v :: vs, blocks, offset, total =>
      let f := writeFill blocks (towrite - total) offset 0
      let r := kernelWrite v f.1
      let total2 := total + f.1
      let o := Obs.sysWrite f.1 r
      if r = f.1 ∧ total2 < towrite then
        match writeLoop towrite vs f.2.1 f.2.2 total2 with
        | Option.none => Option.none
        | Option.some (ex, tr) => Option.some (ex, o :: tr)
      else Option.some (⟨total2, f.1, r⟩, [o])

/-- UnixNetVConnection::load_buffer_and_write (src 930-998): run the
vectored write loop from the reader's block and start_offset; the caller
ORs EVENTIO_WRITE into needs afterwards (src 995). -/
def load_buffer_and_write (towrite : Int) (sys blocks : List Int)
    (offset : Int) : Option (LoopExit × List Obs) :=
  writeLoop towrite sys blocks offset 0

/-- The part of write_to_net_io after towrite is final (src 503-592):
disable on nothing to write, run load_buffer_and_write, fold the result,
classify errors as in the read path, and on success consume, advance
ndone, handle the write-buffer-empty trap, signal completion or readiness,
then disable or reschedule.  signalled tells whether the invite signal was
already sent this pass; m0 is the mutex the entry lock was taken on. -/
def writeAfterInvite (h : Handler) (now : Int) (signalled : Bool)
    (m0 : Option Nat) (sys blocks : List Int) (offset : Int)
    (towrite : Int) (w : World) : Option Step :=
  if towrite ≤ 0 then Option.some (write_disable w)
  else
    match load_buffer_and_write towrite sys blocks offset with
    | Option.none => Option.none
    | Option.some (ex, ltr) =>
        let r := foldSummary ex.total ex.ratt ex.last
        let needs := EVENTIO_WRITE
        if r ≤ 0 then
          if r = -EAGAIN ∨ r = -ENOTCONN then
            let w1 : World :=
              if needs &&& EVENTIO_WRITE = EVENTIO_WRITE then
                { w with
                  vc := { w.vc with write := { w.vc.write with triggered := false } },
                  nh := { w.nh with writeReady := false } }
              else w
            let p1 : Step :=
              if needs &&& EVENTIO_WRITE = EVENTIO_WRITE then
                write_reschedule w1
              else (w1, [])
            let p2 : Step :=
              if needs &&& EVENTIO_READ = EVENTIO_READ then
                let w2 : World := { p1.1 with
                  vc := { p1.1.vc with read := { p1.1.vc.read with triggered := false } },
                  nh := { p1.1.nh with readReady := false } }
                read_reschedule w2
              else (p1.1, [])
            Option.some (p2.1, ltr ++ p1.2 ++ p2.2)
          else if r = 0 ∨ r = -ECONNRESET then
            let p := write_signal_done h VC_EVENT_EOS
              { w with vc := { w.vc with
                write := { w.vc.write with triggered := false } } }
            Option.some (p.1.1, ltr ++ p.1.2)
          else
            let p := write_signal_error h (-r)
              { w with vc := { w.vc with
                write := { w.vc.write with triggered := false } } }
            Option.some (p.1.1, ltr ++ p.1.2)
        else
          let wbe := w.vc.wbeEvent
          let w1 : World := { w with vc := { w.vc with
            write := { w.vc.write with vio := { w.vc.write.vio with
              ndone := w.vc.write.vio.ndone + r,
              buf := bufConsume w.vc.write.vio.buf r } } } }
          let w2 : World :=
            if ¬(w1.vc.write.vio.buf.readAvail > 0) then
              { w1 with vc := { w1.vc with wbeEvent := 0 } }
            else w1
          let w3 := net_activity now w2
          if w3.vc.write.vio.ntodo ≤ 0 then
            let p := write_signal_done h VC_EVENT_WRITE_COMPLETE w3
            Option.some (p.1.1, ltr ++ p.1.2)
          else
            writeRemainder h signalled m0 wbe needs ltr w3
where
  /-- src 565-591: the trap signal or the not-yet-signalled WRITE_READY
  (with lock-swap recovery), then the empty-reader disable or the
  reschedules indicated by needs. -/
  writeRemainder (h : Handler) (signalled : Bool) (m0 : Option Nat)
      (wbe : Nat) (needs : Nat) (ltr : List Obs) (w3 : World) : Option Step :=
    if signalled ∧ wbe ≠ w3.vc.wbeEvent then
      let q := write_signal_and_update h wbe w3
      if q.2 then Option.some (q.1.1, ltr ++ q.1.2)
      else writeTail (q.1.1) needs (ltr ++ q.1.2)
    else if ¬signalled then
      let q := write_signal_and_update h VC_EVENT_WRITE_READY w3
      if q.2 then Option.some (q.1.1, ltr ++ q.1.2)
      else if m0 ≠ q.1.1.vc.write.vio.mutexId then
        let p := write_reschedule q.1.1
        Option.some (p.1, ltr ++ q.1.2 ++ p.2)
      else writeTail (q.1.1) needs (ltr ++ q.1.2)
    else writeTail w3 needs ltr
  /-- src 580-591: disable when the reader is empty, otherwise reschedule
  in the directions present in needs. -/
  writeTail (w4 : World) (needs : Nat) (acc : List Obs) : Option Step :=
    if w4.vc.write.vio.buf.readAvail = 0 then
      let p := write_disable w4
      Option.some (p.1, acc ++ p.2)
    else
      let p1 : Step :=
        if needs &&& EVENTIO_WRITE = EVENTIO_WRITE then write_reschedule w4
        else (w4, [])
      let p2 : Step :=
        if needs &&& EVENTIO_READ = EVENTIO_READ then read_reschedule p1.1
        else (p1.1, [])
      Option.some (p2.1, acc ++ p1.2 ++ p2.2)

/-- The amount one write pass will attempt (src 481-483 and the recompute
at src 497-500): the reader's read_avail capped by the VIO's ntodo. -/
def writeTowrite (w : World) : Int :=
  if w.vc.write.vio.buf.readAvail > w.vc.write.vio.ntodo then
    w.vc.write.vio.ntodo
  else w.vc.write.vio.buf.readAvail

/-- write_to_net_io (src 423-593).  Inputs beyond the state: the
continuation oracle, whether the entry try-lock succeeded and matched the
write VIO mutex, the current time, the TLS collaborator state, the kernel
response oracle and a snapshot of the reader block chain (read_avail of
each block) with its start_offset. -/
def write_to_net (h : Handler) (lockOk : Bool) (now : Int) (ssl : SslSt)
    (sys blocks : List Int) (offset : Int) (w : World) : Option Step :=
  if ¬lockOk then Option.some (write_reschedule w)
  else if ¬ssl.complete then
    Option.some (sslHandshakeBranch h ssl w)
  else if ¬w.vc.write.enabled ∨ w.vc.write.vio.op ≠ Op.write then
    Option.some (write_disable w)
  else
    let m0 := w.vc.write.vio.mutexId
    let ntodo := w.vc.write.vio.ntodo
    if ntodo ≤ 0 then Option.some (write_disable w)
    else
      if writeTowrite w ≠ ntodo ∧ w.vc.write.vio.buf.writeAvail ≠ 0 then
        let q := write_signal_and_update h VC_EVENT_WRITE_READY w
        if q.2 then Option.some q.1
        else
          let w1 := q.1.1
          if w1.vc.write.vio.ntodo ≤ 0 then
            let p := write_disable w1
            Option.some (p.1, q.1.2 ++ p.2)
          else
            match writeAfterInvite h now true m0 sys blocks offset
                (writeTowrite w1) w1 with
            | Option.none => Option.none
            | Option.some p => Option.some (p.1, q.1.2 ++ p.2)
      else
        writeAfterInvite h now false m0 sys blocks offset (writeTowrite w) w
where
  /-- src 436-464: the handshake hook dispatch. -/
  sslHandshakeBranch (h : Handler) (ssl : SslSt) (w : World) : Step :=
    match ssl.ret with
    | SslRet.eventError =>
        (write_signal_error h ssl.err
          { w with vc := { w.vc with
            write := { w.vc.write with triggered := false } } }).1
    | SslRet.wantRead =>
        let w1 : World := { w with
          vc := { w.vc with read := { w.vc.read with triggered := false } },
          nh := { w.nh with readReady := false } }
        read_reschedule w1
    | SslRet.wantAccept =>
        let w1 : World := { w with
          vc := { w.vc with read := { w.vc.read with triggered := false } },
          nh := { w.nh with readReady := false } }
        read_reschedule w1
    | SslRet.wantConnect =>
        let w1 : World := { w with
          vc := { w.vc with write := { w.vc.write with triggered := false } },
          nh := { w.nh with writeReady := false } }
        write_reschedule w1
    | SslRet.wantWrite =>
        let w1 : World := { w with
          vc := { w.vc with write := { w.vc.write with triggered := false } },
          nh := { w.nh with writeReady := false } }
        write_reschedule w1
    | SslRet.eventDone =>
        let w1 : World := { w with
          vc := { w.vc with write := { w.vc.write with triggered := true } } }
        (if w1.vc.write.enabled then
          { w1 with nh := { w1.nh with writeReady := true } }
         else w1, [])
    | SslRet.other => write_reschedule w

/-- The NetState of the given direction. -/
def VcSt.dirState (vc : VcSt) : Dir → NetSt
  | Dir.read => vc.read
  | Dir.write => vc.write

/-- Update the NetState of the given direction. -/
def VcSt.setDirState (vc : VcSt) : Dir → NetSt → VcSt
  | Dir.read, s => { vc with read := s }
  | Dir.write, s => { vc with write := s }

/-- The polling interest of a direction. -/
def Dir.interest : Dir → Nat
  | Dir.read => EVENTIO_READ
  | Dir.write => EVENTIO_WRITE

/-- The ready-list membership of the given direction. -/
def World.readyList (w : World) : Dir → Bool
  | Dir.read => w.nh.readReady
  | Dir.write => w.nh.writeReady

/-- UnixNetVConnection::set_enabled (src 901-918, timeout-field variant):
raise the direction's enabled flag and arm the inactivity deadline when it
is configured but disarmed. -/
def set_enabled (d : Dir) (now : Int) (w : World) : World :=
  let w1 : World := { w with
    vc := w.vc.setDirState d { w.vc.dirState d with enabled := true } }
  if w1.vc.nextInactivityTimeoutAt = 0 ∧ w1.vc.inactivityTimeoutIn ≠ 0 then
    { w1 with vc := { w1.vc with
      nextInactivityTimeoutAt := now + w1.vc.inactivityTimeoutIn } }
  else w1

/-- The owner-thread body of reenable (src 805-819 and 836-852): modify and
refresh the polling interest, then put the VC on or off the direction's
ready list according to triggered. -/
def reenableReadyFix (d : Dir) (w : World) : Step :=
  let onList := (w.vc.dirState d).triggered
  (match d with
   | Dir.read => { w with nh := { w.nh with readReady := onList } }
   | Dir.write => { w with nh := { w.nh with writeReady := onList } },
   [Obs.epModify (Int.ofNat d.interest), Obs.epRefresh (Int.ofNat d.interest)])

/-- UnixNetVConnection::reenable (src 793-854).  t is the calling thread
(the holder of the VIO mutex), tryOk the outcome of the try-lock on
nh.mutex when the caller is not its owner, hook whether the owning thread
has a registered signal hook to wake it. -/
def reenable (d : Dir) (now : Int) (t : Nat) (tryOk hook : Bool)
    (w : World) : Step :=
  if (w.vc.dirState d).enabled then (w, [])
  else
    let w1 := set_enabled d now w
    if w1.vc.thread = Option.none then (w1, [])
    else if w1.nh.holder = Option.some t then reenableReadyFix d w1
    else if ¬tryOk then
      let w2 : World :=
        if ¬(w1.vc.dirState d).inEnabledList then
          let w15 : World := { w1 with
            vc := w1.vc.setDirState d
              { w1.vc.dirState d with inEnabledList := true } }
          match d with
          | Dir.read => { w15 with nh := { w15.nh with readEnable := true } }
          | Dir.write => { w15 with nh := { w15.nh with writeEnable := true } }
        else w1
      (w2, if hook then [Obs.signalHook] else [])
    else reenableReadyFix d w1

/-- UnixNetVConnection::do_io_read (src 621-644): refuse on a closed VC,
else populate the read VIO, attach the buffer and reenable when one is
given (and the direction was disabled), or clear and disable when not.
The Bool result is whether a VIO (rather than NULL) was returned. -/
def do_io_read (c : Option Nat) (cMutex : Nat) (nbytes : Int)
    (bufPresent : Bool) (now : Int) (t : Nat) (tryOk hook : Bool)
    (w : World) : Step × Bool :=
  if w.vc.closed ≠ 0 then ((w, []), false)
  else
    let w1 : World := { w with vc := { w.vc with
      read := { w.vc.read with vio := { w.vc.read.vio with
        op := Op.read,
        mutexId := Option.some (if c.isSome then cMutex else w.vc.vcMutexId),
        cont := c, nbytes := nbytes, ndone := 0 } } } }
    if bufPresent then
      let w2 : World := { w1 with vc := { w1.vc with
        read := { w1.vc.read with vio := { w1.vc.read.vio with
          buf := { w1.vc.read.vio.buf with valid := true } } } } }
      if ¬w2.vc.read.enabled then
        (reenable Dir.read now t tryOk hook w2, true)
      else ((w2, []), true)
    else
      let w2 : World := { w1 with vc := { w1.vc with
        read := { w1.vc.read with
          enabled := false,
          vio := { w1.vc.read.vio with buf := bufClear } } } }
      ((w2, []), true)

/-- UnixNetVConnection::do_io_write (src 646-668): refuse on a closed VC,
else populate the write VIO, attach the reader and reenable when one is
given (and nbytes is nonzero and the direction was disabled), or disable
when not (the buffer is left alone in that branch). -/
def do_io_write (c : Option Nat) (cMutex : Nat) (nbytes : Int)
    (readerPresent : Bool) (now : Int) (t : Nat) (tryOk hook : Bool)
    (w : World) : Step × Bool :=
  if w.vc.closed ≠ 0 then ((w, []), false)
  else
    let w1 : World := { w with vc := { w.vc with
      write := { w.vc.write with vio := { w.vc.write.vio with
        op := Op.write,
        mutexId := Option.some (if c.isSome then cMutex else w.vc.vcMutexId),
        cont := c, nbytes := nbytes, ndone := 0 } } } }
    if readerPresent then
      let w2 : World := { w1 with vc := { w1.vc with
        write := { w1.vc.write with vio := { w1.vc.write.vio with
          buf := { w1.vc.write.vio.buf with valid := true } } } } }
      if nbytes ≠ 0 ∧ ¬w2.vc.write.enabled then
        (reenable Dir.write now t tryOk hook w2, true)
      else ((w2, []), true)
    else
      let w2 : World := { w1 with vc := { w1.vc with
        write := { w1.vc.write with enabled := false } } }
      ((w2, []), true)

/-- UnixNetVConnection::do_io_close (src 670-697): disable both
directions, clear both VIOs, record the error in lerrno when it is neither
zero nor the -1 sentinel, set the closed tri-state (1 for the sentinel,
-1 otherwise), and close inline exactly when recursion is zero and the
NetHandler is absent or its mutex is held by the calling thread t. -/
def do_io_close (t : Nat) (alerrno : Int) (w : World) : Step :=
  let w1 : World := { w with vc := { w.vc with
    read := { w.vc.read with
      enabled := false,
      vio := { w.vc.read.vio with
        buf := bufClear, nbytes := 0, op := Op.none, cont := Option.none } },
    write := { w.vc.write with
      enabled := false,
      vio := { w.vc.write.vio with
        buf := bufClear, nbytes := 0, op := Op.none, cont := Option.none } } } }
  let closeInline := w1.vc.recursion = 0 ∧
    (w1.nhNull ∨ w1.nh.holder = Option.some t)
  let w2 : World :=
    if alerrno ≠ 0 ∧ alerrno ≠ -1 then
      { w1 with vc := { w1.vc with lerrno := alerrno } }
    else w1
  let w3 : World := { w2 with vc := { w2.vc with
    closed := if alerrno = -1 then 1 else -1 } }
  if closeInline then close_UnixNetVConnection w3 (Option.some t) else (w3, [])

/-- The argument of do_io_shutdown. -/
inductive ShutdownHowTo where
  | shutRead : ShutdownHowTo
  | shutWrite : ShutdownHowTo
  | shutReadWrite : ShutdownHowTo
deriving DecidableEq

/-- UnixNetVConnection::do_io_shutdown (src 699-730): issue the socket
shutdown, disable and clear the affected half or halves, and assign (not
OR) the corresponding bits into f.shutdown. -/
def do_io_shutdown (howto : ShutdownHowTo) (w : World) : Step :=
  match howto with
  | ShutdownHowTo.shutRead =>
      ({ w with vc := { w.vc with
         read := { w.vc.read with
           enabled := false,
           vio := { w.vc.read.vio with buf := bufClear, nbytes := 0 } },
         shutdown := NET_VC_SHUTDOWN_READ } },
       [Obs.sockShutdown 0])
  | ShutdownHowTo.shutWrite =>
      ({ w with vc := { w.vc with
         write := { w.vc.write with
           enabled := false,
           vio := { w.vc.write.vio with buf := bufClear, nbytes := 0 } },
         shutdown := NET_VC_SHUTDOWN_WRITE } },
       [Obs.sockShutdown 1])
  | ShutdownHowTo.shutReadWrite =>
      ({ w with vc := { w.vc with
         read := { w.vc.read with
           enabled := false,
           vio := { w.vc.read.vio with buf := bufClear, nbytes := 0 } },
         write := { w.vc.write with
           enabled := false,
           vio := { w.vc.write.vio with buf := bufClear, nbytes := 0 } },
         shutdown := NET_VC_SHUTDOWN_READ ||| NET_VC_SHUTDOWN_WRITE } },
       [Obs.sockShutdown 2])

/-- The write half of mainEvent (src 1187-1190): the write side is
signalled only when the disarmed deadline slot (the one matching the
signalled event type) is still clear, the VC is not closed, the write VIO
is a WRITE whose half is not shut down, and the current write continuation
differs from the continuation the read side signalled yet equals the one
saved before that signal. -/
def mainEventWriteSide (h : Handler) (sigEv : Nat)
    (readerCont writerCont : Option Nat) (w : World) (acc : List Obs) : Step :=
  let slotClear :=
    if sigEv = VC_EVENT_INACTIVITY_TIMEOUT then
      w.vc.nextInactivityTimeoutAt = 0
    else w.vc.nextActivityTimeoutAt = 0
  if slotClear ∧ w.vc.closed = 0 ∧ w.vc.write.vio.op = Op.write ∧
     w.vc.shutdown &&& NET_VC_SHUTDOWN_WRITE = 0 ∧
     readerCont ≠ w.vc.write.vio.cont ∧
     writerCont = w.vc.write.vio.cont then
    let q := write_signal_and_update h sigEv w
    (q.1.1, acc ++ q.1.2)
  else (w, acc)

/-- The tail of mainEvent after the firing deadline slot was disarmed
(src 1172-1191), on the already-disarmed state w1: save the write
continuation, close if requested, signal the read side when it is an
un-shut-down READ, then run the guarded write half. -/
def mainEventArmed (h : Handler) (sigEv : Nat) (w1 : World) : Step :=
  let writerCont := w1.vc.write.vio.cont
  if w1.vc.closed ≠ 0 then close_UnixNetVConnection w1 w1.vc.thread
  else if w1.vc.read.vio.op = Op.read ∧
          w1.vc.shutdown &&& NET_VC_SHUTDOWN_READ = 0 then
    let readerCont := w1.vc.read.vio.cont
    let q := read_signal_and_update h sigEv w1
    if q.2 then q.1
    else mainEventWriteSide h sigEv readerCont writerCont q.1.1 q.1.2
  else
    mainEventWriteSide h sigEv Option.none writerCont w1 []

/-- UnixNetVConnection::mainEvent (src 1117-1192, timeout-field variant).
locksOk collapses the three try-locks and the two mutex-swap checks of the
entry; imm tells whether the event is EVENT_IMMEDIATE (inactivity) rather
than EVENT_INTERVAL (activity). -/
def mainEvent (h : Handler) (locksOk cancelled imm : Bool) (now : Int)
    (w : World) : Step :=
  if ¬locksOk then (w, [])
  else if cancelled then (w, [])
  else if imm ∧ (w.vc.inactivityTimeoutIn = 0 ∨
                 w.vc.nextInactivityTimeoutAt > now) then (w, [])
  else if imm then
    mainEventArmed h VC_EVENT_INACTIVITY_TIMEOUT
      { w with vc := { w.vc with nextInactivityTimeoutAt := 0 } }
  else
    mainEventArmed h VC_EVENT_ACTIVE_TIMEOUT
      { w with vc := { w.vc with nextActivityTimeoutAt := 0 } }

/-- A concrete running VC used by the witnesses: open, both directions
enabled and triggered, distinct continuations on the two VIOs. -/
def w0 : World :=
  { vc := {
      read := {
        vio := { op := Op.read, nbytes := 100, ndone := 0,
                 cont := Option.some 7, mutexId := Option.some 1,
                 buf := { valid := true, readAvail := 0, writeAvail := 64 } },
        enabled := true, triggered := true, inEnabledList := false },
      write := {
        vio := { op := Op.write, nbytes := 200, ndone := 0,
                 cont := Option.some 8, mutexId := Option.some 2,
                 buf := { valid := true, readAvail := 32, writeAvail := 64 } },
        enabled := true, triggered := true, inEnabledList := false },
      closed := 0, recursion := 0, lerrno := 0, shutdown := 0,
      thread := Option.some 0, vcMutexId := 9,
      inactivityTimeoutIn := 0, activeTimeoutIn := 0,
      nextInactivityTimeoutAt := 0, nextActivityTimeoutAt := 0,
      wbeEvent := 0 },
    nh := { holder := Option.some 0, openList := true, copList := false,
            readReady := true, writeReady := false,
            readEnable := false, writeEnable := false,
            keepAliveQueue := false, activeQueue := false },
    nhNull := false, freed := false, crashed := false }

/-- The passive continuation oracle used by the witnesses. -/
def passiveHandler : Handler := fun _ _ w => w

/-- True exactly on observations that deliver a timeout event to the
continuation with identity c. -/
def timeoutDelivTo (c : Nat) : Obs → Bool := fun o =>
  match o with
  | Obs.delivered _ c2 ev =>
      c2 = Option.some c ∧
        (ev = VC_EVENT_INACTIVITY_TIMEOUT ∨ ev = VC_EVENT_ACTIVE_TIMEOUT)
  | _ => false

/-- The VIO progress invariant: in each direction, ndone is at most nbytes
unless nbytes is 0 (read until EOS). -/
def Inv (w : World) : Prop :=
  (w.vc.read.vio.ndone ≤ w.vc.read.vio.nbytes ∨ w.vc.read.vio.nbytes = 0) ∧
  (w.vc.write.vio.ndone ≤ w.vc.write.vio.nbytes ∨ w.vc.write.vio.nbytes = 0)

/-- An invariant-preserving continuation oracle. -/
def PreservesInv (h : Handler) : Prop :=
  ∀ c ev w, Inv w → Inv (h c ev w)

/-- C1: in the vectored read loop, whenever the exit state has total_read
different from the last attempted amount, the folded signed effective
result equals total_read - attempted + max(last, 0): the earlier progress
minus the short attempt, plus the last return only when it was positive. -/
theorem c1_folded_result (toread total0 : Int) (sys blocks : List Int)
    (ex : LoopExit) (tr : List Obs)
    (hrun : readLoop toread sys blocks total0 = Option.some (ex, tr))
    (hne : ex.total ≠ ex.ratt) :
    foldSummary ex.total ex.ratt ex.last = ex.total - ex.ratt + max ex.last 0 ∧
    (ex.last ≤ 0 →
      foldSummary ex.total ex.ratt ex.last = ex.total - ex.ratt) ∧
    (0 < ex.last →
      foldSummary ex.total ex.ratt ex.last = ex.total - ex.ratt + ex.last) := by
  rcases le_or_lt ex.last 0 with hle | hlt
  · have hm : max ex.last 0 = 0 := max_eq_right hle
    simp [foldSummary, hne, hle, hm]
  · have hm : max ex.last 0 = ex.last := max_eq_left (le_of_lt hlt)
    simp [foldSummary, hne, not_le.mpr hlt, hm]

/-- Witness for C1: a 3-byte block chain against a 5-byte toread makes a
fully-satisfied first syscall followed by a 0-byte attempt answered
-ENOTCONN, so the exit has total_read = 3 and attempted = 0. -/
theorem c1_witness :
    readLoop 5 [3, -107] [3] 0 =
      Option.some (⟨3, 0, -107⟩,
        [Obs.sysRead 3 3, Obs.sysRead 0 (-107)]) ∧
    foldSummary 3 0 (-107) = 3 - 0 + max (-107) 0 := by
  refine ⟨by decide, ?_⟩
  exact (c1_folded_result 5 0 [3, -107] [3] ⟨3, 0, -107⟩
    [Obs.sysRead 3 3, Obs.sysRead 0 (-107)] (by decide) (by decide)).1

/-- C6 counterexample: the claim asserts that once the READ bit of
f.shutdown is set it stays set, so that do_io_shutdown(WRITE) after
do_io_shutdown(READ) leaves both bits set; on the code, the second call
overwrites the field and the READ bit is gone. -/
theorem c6_read_bit_lost :
    ((do_io_shutdown ShutdownHowTo.shutRead w0).1.vc.shutdown &&&
       NET_VC_SHUTDOWN_READ = NET_VC_SHUTDOWN_READ) ∧
    ((do_io_shutdown ShutdownHowTo.shutWrite
        (do_io_shutdown ShutdownHowTo.shutRead w0).1).1.vc.shutdown =
       NET_VC_SHUTDOWN_WRITE) ∧
    ((do_io_shutdown ShutdownHowTo.shutWrite
        (do_io_shutdown ShutdownHowTo.shutRead w0).1).1.vc.shutdown &&&
       NET_VC_SHUTDOWN_READ = 0) := by
  decide

/-- C6 amended: do_io_shutdown assigns (does not OR) the shutdown bits, so
after any call f.shutdown holds exactly the bits of that call; in
particular do_io_shutdown(WRITE) after do_io_shutdown(READ) leaves only the
WRITE bit set. -/
theorem c6_shutdown_assignment (w : World) :
    (do_io_shutdown ShutdownHowTo.shutRead w).1.vc.shutdown =
      NET_VC_SHUTDOWN_READ ∧
    (do_io_shutdown ShutdownHowTo.shutWrite w).1.vc.shutdown =
      NET_VC_SHUTDOWN_WRITE ∧
    (do_io_shutdown ShutdownHowTo.shutReadWrite w).1.vc.shutdown =
      (NET_VC_SHUTDOWN_READ ||| NET_VC_SHUTDOWN_WRITE) ∧
    (do_io_shutdown ShutdownHowTo.shutWrite
        (do_io_shutdown ShutdownHowTo.shutRead w).1).1.vc.shutdown &&&
      NET_VC_SHUTDOWN_READ = 0 := by
  refine ⟨rfl, rfl, rfl, ?_⟩
  show NET_VC_SHUTDOWN_WRITE &&& NET_VC_SHUTDOWN_READ = 0
  decide

/-- C10: do_io_read and do_io_write on a VC whose closed flag is nonzero
return NULL and change nothing: the state is returned untouched, with no
observable action. -/
theorem c10_closed_refused (w : World) (c : Option Nat) (cMutex : Nat)
    (nbytes : Int) (present : Bool) (now : Int) (t : Nat) (tryOk hook : Bool)
    (hc : w.vc.closed ≠ 0) :
    do_io_read c cMutex nbytes present now t tryOk hook w = ((w, []), false) ∧
    do_io_write c cMutex nbytes present now t tryOk hook w = ((w, []), false) := by
  unfold do_io_read do_io_write
  simp [hc]

/-- The trace of read_signal_and_update always starts with the delivered
observation toward the read VIO continuation of the entry state. -/
theorem read_signal_and_update_trace (h : Handler) (ev : Nat) (w : World) :
    ∃ rest, (read_signal_and_update h ev w).1.2 =
      Obs.delivered Dir.read w.vc.read.vio.cont ev :: rest := by
  cases hc : w.vc.read.vio.cont <;>
    simp only [read_signal_and_update, signalUpdateTail, hc] <;>
    repeat' split
  all_goals exact ⟨_, rfl⟩

/-- The trace of write_signal_and_update always starts with the delivered
observation toward the write VIO continuation of the entry state. -/
theorem write_signal_and_update_trace (h : Handler) (ev : Nat) (w : World) :
    ∃ rest, (write_signal_and_update h ev w).1.2 =
      Obs.delivered Dir.write w.vc.write.vio.cont ev :: rest := by
  cases hc : w.vc.write.vio.cont <;>
    simp only [write_signal_and_update, signalUpdateTail, hc] <;>
    repeat' split
  all_goals exact ⟨_, rfl⟩

/-- The trace of read_signal_done always contains the delivered observation
toward the read VIO continuation of the entry state. -/
theorem read_signal_done_trace (h : Handler) (ev : Nat) (w : World) :
    Obs.delivered Dir.read w.vc.read.vio.cont ev ∈
      (read_signal_done h ev w).1.2 := by
  obtain ⟨rest, hr⟩ := read_signal_and_update_trace h ev
    { w with vc := { w.vc with read := { w.vc.read with enabled := false } } }
  simp only [read_signal_done]
  by_cases hd : (read_signal_and_update h ev
      { w with vc := { w.vc with
        read := { w.vc.read with enabled := false } } }).2 = true
  · simp [hd, hr]
  · simp [hd, hr]

/-- C2: classification of a nonpositive folded read result.  -EAGAIN and
-ENOTCONN clear triggered, leave the ready list and signal nothing; 0 and
-ECONNRESET clear triggered, leave the ready list and signal VC_EVENT_EOS
through read_signal_done; any other negative result signals VC_EVENT_ERROR
through read_signal_done with lerrno set to its magnitude. -/
theorem c2_nonpositive_classification (h : Handler) (w : World) (r : Int) :
    (r = -EAGAIN ∨ r = -ENOTCONN →
      readClassify h r w =
        ({ w with
           vc := { w.vc with read := { w.vc.read with triggered := false } },
           nh := { w.nh with readReady := false } }, [])) ∧
    (r = 0 ∨ r = -ECONNRESET →
      readClassify h r w =
        (read_signal_done h VC_EVENT_EOS
          { w with
            vc := { w.vc with read := { w.vc.read with triggered := false } },
            nh := { w.nh with readReady := false } }).1 ∧
      Obs.delivered Dir.read w.vc.read.vio.cont VC_EVENT_EOS ∈
        (readClassify h r w).2) ∧
    (r < 0 ∧ r ≠ -EAGAIN ∧ r ≠ -ENOTCONN ∧ r ≠ -ECONNRESET →
      readClassify h r w =
        (read_signal_done h VC_EVENT_ERROR
          { w with
            vc := { w.vc with
              read := { w.vc.read with triggered := false },
              lerrno := -r } }).1 ∧
      Obs.delivered Dir.read w.vc.read.vio.cont VC_EVENT_ERROR ∈
        (readClassify h r w).2) := by
  refine ⟨fun hr => ?_, fun hr => ?_, fun hr => ?_⟩
  · simp [readClassify, hr]
  · have hne : ¬(r = -EAGAIN ∨ r = -ENOTCONN) := by
      rcases hr with h0 | h0 <;> subst h0 <;> decide
    constructor
    · simp [readClassify, hne, hr]
    · have hmem := read_signal_done_trace h VC_EVENT_EOS
        { w with
          vc := { w.vc with read := { w.vc.read with triggered := false } },
          nh := { w.nh with readReady := false } }
      simp only [readClassify, if_neg hne, if_pos hr]
      exact hmem
  · obtain ⟨hneg, h1, h2, h3⟩ := hr
    have hne : ¬(r = -EAGAIN ∨ r = -ENOTCONN) := by
      intro hx; rcases hx with hx | hx <;> [exact h1 hx; exact h2 hx]
    have hne2 : ¬(r = 0 ∨ r = -ECONNRESET) := by
      intro hx
      rcases hx with hx | hx
      · omega
      · exact h3 hx
    constructor
    · simp [readClassify, hne, hne2, read_signal_error]
    · have hmem := read_signal_done_trace h VC_EVENT_ERROR
        { w with
          vc := { w.vc with
            read := { w.vc.read with triggered := false },
            lerrno := -r } }
      simp only [readClassify, if_neg hne, if_neg hne2, read_signal_error]
      exact hmem

/-- Witness for C2: the -EAGAIN branch evaluated on the concrete VC. -/
theorem c2_witness :
    readClassify passiveHandler (-EAGAIN) w0 =
      ({ w0 with
         vc := { w0.vc with read := { w0.vc.read with triggered := false } },
         nh := { w0.nh with readReady := false } }, []) := by
  exact (c2_nonpositive_classification passiveHandler w0 (-EAGAIN)).1
    (Or.inl rfl)

/-- C4: do_io_close closes inline exactly when recursion is zero and the
NetHandler is absent or its mutex is held by the calling thread; otherwise
it only records closed (1 for the -1 sentinel argument, else -1), stores a
non-zero non-sentinel error in lerrno, and defers destruction. -/
theorem c4_close_inline_iff (w : World) (t : Nat) (alerrno : Int)
    (hth : w.vc.thread = Option.some t) (hfr : w.freed = false) :
    ((do_io_close t alerrno w).1.freed = true ↔
      (w.vc.recursion = 0 ∧ (w.nhNull ∨ w.nh.holder = Option.some t))) ∧
    (¬(w.vc.recursion = 0 ∧ (w.nhNull ∨ w.nh.holder = Option.some t)) →
      (do_io_close t alerrno w).1.vc.closed =
        (if alerrno = -1 then 1 else -1) ∧
      (do_io_close t alerrno w).1.vc.lerrno =
        (if alerrno ≠ 0 ∧ alerrno ≠ -1 then alerrno else w.vc.lerrno) ∧
      (do_io_close t alerrno w).1.freed = false) := by
  by_cases hg : w.vc.recursion = 0 ∧ (w.nhNull ∨ w.nh.holder = Option.some t)
  · refine ⟨?_, fun hng => absurd hg hng⟩
    simp [do_io_close, close_UnixNetVConnection, vcFree, hg, hth]
    split <;> split <;> simp_all
  · refine ⟨?_, fun _ => ?_⟩
    · simp [do_io_close, hg]
      split <;> simp [hfr, hg]
    · simp [do_io_close, hg]
      split <;> simp_all

/-- Witness for C4: deferred close on a VC inside a recursive callback. -/
theorem c4_witness :
    (do_io_close 0 5 { w0 with vc := { w0.vc with recursion := 2 } }).1.freed =
      false := by
  exact ((c4_close_inline_iff { w0 with vc := { w0.vc with recursion := 2 } }
    0 5 (by decide) (by decide)).2 (by decide)).2.2

/-- C9: an EOS, ERROR or timeout event signalled at a VIO whose
continuation is null sets closed = 1, so the VC is closed as soon as the
recursion counter returns to zero: immediately when the signal is the
outermost frame, otherwise the flag stays set for the unwinding frame. -/
theorem c9_null_cont_closes (h : Handler) (ev : Nat) (w : World)
    (hr : w.vc.read.vio.cont = Option.none)
    (hw : w.vc.write.vio.cont = Option.none)
    (hev : ev = VC_EVENT_EOS ∨ ev = VC_EVENT_ERROR ∨
           ev = VC_EVENT_ACTIVE_TIMEOUT ∨ ev = VC_EVENT_INACTIVITY_TIMEOUT)
    (hfr : w.freed = false) :
    ((w.vc.recursion = 0 → (read_signal_and_update h ev w).1.1.freed = true) ∧
     (w.vc.recursion ≠ 0 →
       (read_signal_and_update h ev w).1.1.vc.closed = 1 ∧
       (read_signal_and_update h ev w).1.1.freed = false)) ∧
    ((w.vc.recursion = 0 → (write_signal_and_update h ev w).1.1.freed = true) ∧
     (w.vc.recursion ≠ 0 →
       (write_signal_and_update h ev w).1.1.vc.closed = 1 ∧
       (write_signal_and_update h ev w).1.1.freed = false)) := by
  constructor
  · simp only [read_signal_and_update, hr, signalUpdateTail, if_pos hev]
    constructor
    · intro h0
      simp [close_UnixNetVConnection, vcFree, h0]
    · intro h0
      simp [h0, hfr]
  · simp only [write_signal_and_update, hw, signalUpdateTail, if_pos hev]
    constructor
    · intro h0
      simp [close_UnixNetVConnection, vcFree, h0]
    · intro h0
      simp [h0, hfr]

/-- Witness for C9: EOS at a null read continuation on an idle VC frees it
at once. -/
theorem c9_witness :
    (read_signal_and_update passiveHandler VC_EVENT_EOS
      { w0 with vc := { w0.vc with
        read := { w0.vc.read with
          vio := { w0.vc.read.vio with cont := Option.none } },
        write := { w0.vc.write with
          vio := { w0.vc.write.vio with cont := Option.none } } } }).1.1.freed =
      true := by
  exact ((c9_null_cont_closes passiveHandler VC_EVENT_EOS _
    (by decide) (by decide) (Or.inl rfl) (by decide)).1).1 (by decide)

/-- C8: a read pass whose VIO still has work (ntodo greater than 0) but
whose writer buffer has no available space performs no read or readv
syscall and disables the read direction: enabled is cleared and the VC
leaves the read-ready list. -/
theorem c8_empty_writer_disables (h : Handler) (t : Nat) (now : Int)
    (sys blocks : List Int) (w : World)
    (h2 : w.vc.closed = 0) (h3 : w.vc.read.enabled = true)
    (h4 : w.vc.read.vio.op = Op.read) (h5 : 0 < w.vc.read.vio.ntodo)
    (h6 : w.vc.read.vio.buf.writeAvail = 0) :
    read_from_net h true t now sys blocks w = Option.some (read_disable w) ∧
    (read_disable w).1.vc.read.enabled = false ∧
    (read_disable w).1.nh.readReady = false ∧
    ∀ o ∈ (read_disable w).2, o.isSysRead = false := by
  have hntodo : ¬w.vc.read.vio.ntodo ≤ 0 := by omega
  have hnlt : ¬w.vc.read.vio.buf.writeAvail > w.vc.read.vio.ntodo := by omega
  refine ⟨?_, rfl, rfl, ?_⟩
  · have hmlt : ¬(0 : Int) > w.vc.read.vio.ntodo := by omega
    simp [read_from_net, h2, h3, h4, hntodo, hnlt, hmlt, h6, readFinish]
  · intro o ho
    simp only [read_disable, List.mem_singleton] at ho
    simp [ho, Obs.isSysRead]

/-- Witness for C8: the concrete VC with a full writer buffer. -/
theorem c8_witness :
    read_from_net passiveHandler true 0 0 [5] [64]
      { w0 with vc := { w0.vc with read := { w0.vc.read with
        vio := { w0.vc.read.vio with
          buf := { valid := true, readAvail := 64, writeAvail := 0 } } } } } =
    Option.some (read_disable
      { w0 with vc := { w0.vc with read := { w0.vc.read with
        vio := { w0.vc.read.vio with
          buf := { valid := true, readAvail := 64, writeAvail := 0 } } } } }) := by
  exact (c8_empty_writer_disables passiveHandler 0 0 [5] [64] _
    (by decide) (by decide) (by decide) (by decide) (by decide)).1

/-- C5 counterexample: the claim demands that even when the direction's
enabled flag is already 1 on entry, reenable still (re)installs the polling
interest and leaves the VC on the ready list exactly when triggered; on the
code, reenable returns immediately in that case, so a triggered, enabled VC
that is off the ready list stays off it and no polling operation occurs. -/
theorem c5_already_enabled_noop :
    reenable Dir.read 0 0 true true
        { w0 with nh := { w0.nh with readReady := false } } =
      ({ w0 with nh := { w0.nh with readReady := false } }, []) ∧
    ({ w0 with nh := { w0.nh with readReady := false } } : World).nh.holder =
      Option.some 0 ∧
    ({ w0 with
       nh := { w0.nh with readReady := false } } : World).vc.read.enabled =
      true ∧
    ({ w0 with
       nh := { w0.nh with readReady := false } } : World).vc.read.triggered =
      true ∧
    ({ w0 with nh := { w0.nh with readReady := false } } : World).nh.readReady =
      false := by
  decide

/-- C5 amended: when the calling thread holds the VIO mutex and the
direction's enabled flag is 0 on entry (and the VC has an owning thread),
reenable sets enabled to 1 and — when the caller owns nh.mutex or its
try-lock succeeds — issues ep.modify and ep.refresh for the direction and
puts the VC on the ready list exactly when triggered; when the flag is
already 1 on entry the call returns immediately and changes nothing. -/
theorem c5_reenable_disabled_entry (d : Dir) (now : Int) (t : Nat)
    (tryOk hook : Bool) (w : World)
    (he : (w.vc.dirState d).enabled = false)
    (hth : w.vc.thread ≠ Option.none)
    (hacc : w.nh.holder = Option.some t ∨ tryOk = true) :
    ((reenable d now t tryOk hook w).1.vc.dirState d).enabled = true ∧
    Obs.epModify (Int.ofNat d.interest) ∈ (reenable d now t tryOk hook w).2 ∧
    Obs.epRefresh (Int.ofNat d.interest) ∈ (reenable d now t tryOk hook w).2 ∧
    (reenable d now t tryOk hook w).1.readyList d =
      ((reenable d now t tryOk hook w).1.vc.dirState d).triggered ∧
    (∀ w2 : World, (w2.vc.dirState d).enabled = true →
      reenable d now t tryOk hook w2 = (w2, [])) := by
  have hnoop : ∀ w2 : World, (w2.vc.dirState d).enabled = true →
      reenable d now t tryOk hook w2 = (w2, []) := by
    intro w2 h2
    unfold reenable
    simp [h2]
  have hset : ∀ w3 : World,
      ((set_enabled d now w3).vc.dirState d).enabled = true ∧
      ((set_enabled d now w3).vc.dirState d).triggered =
        (w3.vc.dirState d).triggered ∧
      (set_enabled d now w3).vc.thread = w3.vc.thread ∧
      (set_enabled d now w3).nh = w3.nh := by
    intro w3
    cases d <;>
      simp [set_enabled, VcSt.dirState, VcSt.setDirState] <;>
      split <;> simp [VcSt.dirState]
  have hfix : ∀ w4 : World,
      ((reenableReadyFix d w4).1.vc.dirState d).enabled =
        ((w4.vc.dirState d)).enabled ∧
      ((reenableReadyFix d w4).1.vc.dirState d).triggered =
        (w4.vc.dirState d).triggered ∧
      (reenableReadyFix d w4).1.readyList d = (w4.vc.dirState d).triggered ∧
      (reenableReadyFix d w4).2 =
        [Obs.epModify (Int.ofNat d.interest),
         Obs.epRefresh (Int.ofNat d.interest)] := by
    intro w4
    cases d <;>
      simp [reenableReadyFix, VcSt.dirState, World.readyList]
  have hbranch : reenable d now t tryOk hook w =
      reenableReadyFix d (set_enabled d now w) := by
    unfold reenable
    rcases hacc with ha | ha
    · simp [he, (hset w).2.2.1, (hset w).2.2.2, hth, ha]
    · by_cases hh : w.nh.holder = Option.some t
      · simp [he, (hset w).2.2.1, (hset w).2.2.2, hth, hh]
      · simp [he, (hset w).2.2.1, (hset w).2.2.2, hth, hh, ha]
  refine ⟨?_, ?_, ?_, ?_, hnoop⟩
  · rw [hbranch]
    rw [(hfix (set_enabled d now w)).1]
    exact (hset w).1
  · rw [hbranch, (hfix (set_enabled d now w)).2.2.2]
    simp
  · rw [hbranch, (hfix (set_enabled d now w)).2.2.2]
    simp
  · rw [hbranch, (hfix (set_enabled d now w)).2.2.1,
        (hfix (set_enabled d now w)).2.1]

/-- Witness for C5: reenabling the disabled read direction of the concrete
VC on its owner thread. -/
theorem c5_witness :
    ((reenable Dir.read 0 0 true true
        { w0 with vc := { w0.vc with
          read := { w0.vc.read with enabled := false } } }).1.vc.dirState
      Dir.read).enabled = true := by
  exact (c5_reenable_disabled_entry Dir.read 0 0 true true
    { w0 with vc := { w0.vc with
      read := { w0.vc.read with enabled := false } } }
    (by decide) (by decide) (Or.inl rfl)).1

/-- close_UnixNetVConnection emits exactly the polling stop. -/
theorem close_UnixNetVConnection_trace (w : World) (t : Option Nat) :
    (close_UnixNetVConnection w t).2 = [Obs.epStop] := by
  unfold close_UnixNetVConnection
  split <;> rfl

/-- The trace of read_signal_and_update is the delivered observation toward
the entry read continuation, possibly followed by an inline close. -/
theorem read_signal_and_update_shape (h : Handler) (ev : Nat) (w : World) :
    (read_signal_and_update h ev w).1.2 =
      [Obs.delivered Dir.read w.vc.read.vio.cont ev] ∨
    (read_signal_and_update h ev w).1.2 =
      [Obs.delivered Dir.read w.vc.read.vio.cont ev, Obs.epStop] := by
  cases hc : w.vc.read.vio.cont <;>
    simp only [read_signal_and_update, signalUpdateTail, hc] <;>
    repeat' split
  all_goals simp [close_UnixNetVConnection_trace]

/-- The trace of write_signal_and_update is the delivered observation
toward the entry write continuation, possibly followed by an inline
close. -/
theorem write_signal_and_update_shape (h : Handler) (ev : Nat) (w : World) :
    (write_signal_and_update h ev w).1.2 =
      [Obs.delivered Dir.write w.vc.write.vio.cont ev] ∨
    (write_signal_and_update h ev w).1.2 =
      [Obs.delivered Dir.write w.vc.write.vio.cont ev, Obs.epStop] := by
  cases hc : w.vc.write.vio.cont <;>
    simp only [write_signal_and_update, signalUpdateTail, hc] <;>
    repeat' split
  all_goals simp [close_UnixNetVConnection_trace]

/-- The trace of mainEventWriteSide is either the accumulator unchanged, or
the accumulator followed by a write signal whose target — the current
write continuation — differs from the read continuation that was signalled
and equals the saved one. -/
theorem mainEventWriteSide_shape (h : Handler) (sigEv : Nat)
    (rc wc : Option Nat) (w : World) (acc : List Obs) :
    (mainEventWriteSide h sigEv rc wc w acc).2 = acc ∨
    ((mainEventWriteSide h sigEv rc wc w acc).2 =
        acc ++ (write_signal_and_update h sigEv w).1.2 ∧
      rc ≠ w.vc.write.vio.cont ∧ wc = w.vc.write.vio.cont) := by
  by_cases hg :
      ((if sigEv = VC_EVENT_INACTIVITY_TIMEOUT then
          w.vc.nextInactivityTimeoutAt = 0
        else w.vc.nextActivityTimeoutAt = 0) ∧
       w.vc.closed = 0 ∧ w.vc.write.vio.op = Op.write ∧
       w.vc.shutdown &&& NET_VC_SHUTDOWN_WRITE = 0 ∧
       rc ≠ w.vc.write.vio.cont ∧ wc = w.vc.write.vio.cont)
  · right
    refine ⟨?_, hg.2.2.2.2.1, hg.2.2.2.2.2⟩
    simp only [mainEventWriteSide, if_pos hg]
  · left
    simp only [mainEventWriteSide, if_neg hg]

/-- A singleton or close-terminated delivery trace holds at most one
timeout delivery toward any fixed continuation. -/
theorem countP_one_deliv (c : Nat) (d : Dir) (rc : Option Nat) (ev : Nat)
    (t : List Obs)
    (ht : t = [Obs.delivered d rc ev] ∨
          t = [Obs.delivered d rc ev, Obs.epStop]) :
    List.countP (timeoutDelivTo c) t ≤ 1 := by
  rcases ht with ht | ht <;> subst ht <;>
    simp [List.countP_cons, List.countP_nil, timeoutDelivTo] <;>
    split <;> simp

/-- A delivery trace toward a target other than c holds no timeout
delivery toward c. -/
theorem countP_deliv_ne (c : Nat) (d : Dir) (rc : Option Nat) (ev : Nat)
    (t : List Obs)
    (ht : t = [Obs.delivered d rc ev] ∨
          t = [Obs.delivered d rc ev, Obs.epStop])
    (hne : rc ≠ Option.some c) :
    List.countP (timeoutDelivTo c) t = 0 := by
  rcases ht with ht | ht <;> subst ht <;>
    simp [List.countP_cons, List.countP_nil, timeoutDelivTo, hne]

/-- Two delivery traces toward different targets still hold at most one
timeout delivery toward any fixed continuation. -/
theorem countP_two_delivs (c : Nat) (rc wc : Option Nat) (evr evw : Nat)
    (dr dw : Dir) (t1 t2 : List Obs) (hne : rc ≠ wc)
    (h1 : t1 = [Obs.delivered dr rc evr] ∨
          t1 = [Obs.delivered dr rc evr, Obs.epStop])
    (h2 : t2 = [Obs.delivered dw wc evw] ∨
          t2 = [Obs.delivered dw wc evw, Obs.epStop]) :
    List.countP (timeoutDelivTo c) (t1 ++ t2) ≤ 1 := by
  rw [List.countP_append]
  by_cases hc1 : rc = Option.some c
  · have hz : List.countP (timeoutDelivTo c) t2 = 0 :=
      countP_deliv_ne c dw wc evw t2 h2
        (fun hx => hne (hc1.trans hx.symm))
    have hb := countP_one_deliv c dr rc evr t1 h1
    omega
  · have hz : List.countP (timeoutDelivTo c) t1 = 0 :=
      countP_deliv_ne c dr rc evr t1 h1 hc1
    have hb := countP_one_deliv c dw wc evw t2 h2
    omega

/-- Membership in a delivery trace is the delivered head or the close. -/
theorem deliv_trace_cases (d : Dir) (rc : Option Nat) (ev : Nat)
    (t : List Obs)
    (ht : t = [Obs.delivered d rc ev] ∨
          t = [Obs.delivered d rc ev, Obs.epStop]) :
    ∀ o ∈ t, o = Obs.delivered d rc ev ∨ o = Obs.epStop := by
  rcases ht with ht | ht <;> subst ht <;> intro o ho
  · exact Or.inl (by simpa using ho)
  · simpa using ho

/-- A read-side delivery is never a write-side timeout delivery. -/
theorem isTimeoutDeliv_read_ne_write (rc : Option Nat) (ev : Nat) :
    Obs.isTimeoutDeliv Dir.write (Obs.delivered Dir.read rc ev) = false := by
  simp [Obs.isTimeoutDeliv]

/-- A write-side delivery is never a read-side timeout delivery. -/
theorem isTimeoutDeliv_write_ne_read (rc : Option Nat) (ev : Nat) :
    Obs.isTimeoutDeliv Dir.read (Obs.delivered Dir.write rc ev) = false := by
  simp [Obs.isTimeoutDeliv]

/-- The polling stop is not a timeout delivery. -/
theorem isTimeoutDeliv_epStop (d : Dir) :
    Obs.isTimeoutDeliv d Obs.epStop = false := rfl

/-- The two C7 properties on the armed tail of mainEvent: any fixed
continuation receives at most one timeout delivery, and a write-side
timeout delivery goes to the write continuation saved at entry, which
differs from the target of every read-side timeout delivery of the same
pass. -/
theorem mainEventArmed_props (h : Handler) (sigEv : Nat) (w1 : World) :
    (∀ c : Nat,
      List.countP (timeoutDelivTo c) (mainEventArmed h sigEv w1).2 ≤ 1) ∧
    (∀ o ∈ (mainEventArmed h sigEv w1).2, o.isTimeoutDeliv Dir.write = true →
      o.target = w1.vc.write.vio.cont ∧
      ∀ o2 ∈ (mainEventArmed h sigEv w1).2,
        o2.isTimeoutDeliv Dir.read = true → o2.target ≠ o.target) := by
  by_cases hcl : w1.vc.closed ≠ 0
  · have htr : (mainEventArmed h sigEv w1).2 = [Obs.epStop] := by
      simp only [mainEventArmed, if_pos hcl]
      exact close_UnixNetVConnection_trace w1 w1.vc.thread
    rw [htr]
    constructor
    · intro c
      simp [List.countP_cons, List.countP_nil, timeoutDelivTo]
    · intro o ho hto
      simp only [List.mem_singleton] at ho
      rw [ho, isTimeoutDeliv_epStop] at hto
      exact absurd hto (by simp)
  · by_cases hrd : (w1.vc.read.vio.op = Op.read ∧
        w1.vc.shutdown &&& NET_VC_SHUTDOWN_READ = 0)
    · have hq := read_signal_and_update_shape h sigEv w1
      by_cases hqd : (read_signal_and_update h sigEv w1).2 = true
      · have htr : (mainEventArmed h sigEv w1).2 =
            (read_signal_and_update h sigEv w1).1.2 := by
          simp only [mainEventArmed, if_neg hcl, if_pos hrd, hqd, if_true]
        rw [htr]
        constructor
        · intro c
          exact countP_one_deliv c Dir.read _ sigEv _ hq
        · intro o ho hto
          rcases deliv_trace_cases Dir.read _ sigEv _ hq o ho with ho2 | ho2 <;>
            rw [ho2] at hto
          · rw [isTimeoutDeliv_read_ne_write] at hto
            exact absurd hto (by simp)
          · rw [isTimeoutDeliv_epStop] at hto
            exact absurd hto (by simp)
      · have htr : (mainEventArmed h sigEv w1) =
            mainEventWriteSide h sigEv w1.vc.read.vio.cont
              w1.vc.write.vio.cont
              (read_signal_and_update h sigEv w1).1.1
              (read_signal_and_update h sigEv w1).1.2 := by
          simp only [mainEventArmed, if_neg hcl, if_pos hrd, hqd]
          simp [hqd]
        rw [htr]
        rcases mainEventWriteSide_shape h sigEv w1.vc.read.vio.cont
            w1.vc.write.vio.cont
            (read_signal_and_update h sigEv w1).1.1
            (read_signal_and_update h sigEv w1).1.2 with hms | ⟨hms, hne, hwc⟩
        · rw [hms]
          constructor
          · intro c
            exact countP_one_deliv c Dir.read _ sigEv _ hq
          · intro o ho hto
            rcases deliv_trace_cases Dir.read _ sigEv _ hq o ho with ho2 | ho2 <;>
              rw [ho2] at hto
            · rw [isTimeoutDeliv_read_ne_write] at hto
              exact absurd hto (by simp)
            · rw [isTimeoutDeliv_epStop] at hto
              exact absurd hto (by simp)
        · have hw := write_signal_and_update_shape h sigEv
            (read_signal_and_update h sigEv w1).1.1
          rw [hms]
          constructor
          · intro c
            exact countP_two_delivs c w1.vc.read.vio.cont
              ((read_signal_and_update h sigEv w1).1.1.vc.write.vio.cont)
              sigEv sigEv Dir.read Dir.write _ _ hne hq hw
          · intro o ho hto
            rw [List.mem_append] at ho
            rcases ho with ho | ho
            · rcases deliv_trace_cases Dir.read _ sigEv _ hq o ho with ho2 | ho2 <;>
                rw [ho2] at hto
              · rw [isTimeoutDeliv_read_ne_write] at hto
                exact absurd hto (by simp)
              · rw [isTimeoutDeliv_epStop] at hto
                exact absurd hto (by simp)
            · rcases deliv_trace_cases Dir.write _ sigEv _ hw o ho with ho2 | ho2
              · constructor
                · rw [ho2, Obs.target, hwc]
                · intro o2 ho2m hto2
                  rw [List.mem_append] at ho2m
                  rcases ho2m with ho2m | ho2m
                  · rcases deliv_trace_cases Dir.read _ sigEv _ hq o2 ho2m with
                      ho3 | ho3
                    · rw [ho3, Obs.target, ho2, Obs.target]
                      exact hne
                    · rw [ho3, isTimeoutDeliv_epStop] at hto2
                      exact absurd hto2 (by simp)
                  · rcases deliv_trace_cases Dir.write _ sigEv _ hw o2 ho2m with
                      ho3 | ho3 <;> rw [ho3] at hto2
                    · rw [isTimeoutDeliv_write_ne_read] at hto2
                      exact absurd hto2 (by simp)
                    · rw [isTimeoutDeliv_epStop] at hto2
                      exact absurd hto2 (by simp)
              · rw [ho2, isTimeoutDeliv_epStop] at hto
                exact absurd hto (by simp)
    · have htr : (mainEventArmed h sigEv w1) =
          mainEventWriteSide h sigEv Option.none w1.vc.write.vio.cont w1 [] := by
        simp only [mainEventArmed, if_neg hcl, if_neg hrd]
      rw [htr]
      rcases mainEventWriteSide_shape h sigEv Option.none
          w1.vc.write.vio.cont w1 [] with hms | ⟨hms, hne, hwc⟩
      · rw [hms]
        exact ⟨fun c => by simp, fun o ho => absurd ho (by simp)⟩
      · have hw := write_signal_and_update_shape h sigEv w1
        rw [hms]
        constructor
        · intro c
          have := countP_one_deliv c Dir.write _ sigEv _ hw
          simpa using this
        · intro o ho hto
          rw [List.nil_append] at ho
          rcases deliv_trace_cases Dir.write _ sigEv _ hw o ho with ho2 | ho2
          · constructor
            · rw [ho2, Obs.target, hwc]
            · intro o2 ho2m hto2
              rw [List.nil_append] at ho2m
              rcases deliv_trace_cases Dir.write _ sigEv _ hw o2 ho2m with
                  ho3 | ho3 <;> rw [ho3] at hto2
              · rw [isTimeoutDeliv_write_ne_read] at hto2
                exact absurd hto2 (by simp)
              · rw [isTimeoutDeliv_epStop] at hto2
                exact absurd hto2 (by simp)
          · rw [ho2, isTimeoutDeliv_epStop] at hto
            exact absurd hto (by simp)

/-- C7: over one mainEvent pass, any fixed continuation receives at most
one timeout delivery; every write-side timeout delivery goes to the write
continuation saved before the read side was signalled, and its target
differs from the target of every read-side timeout delivery of the pass —
so a single continuation owning both directions receives the timeout at
most once. -/
theorem c7_timeout_once (h : Handler) (locksOk cancelled imm : Bool)
    (now : Int) (w : World) :
    (∀ c : Nat,
      List.countP (timeoutDelivTo c)
        (mainEvent h locksOk cancelled imm now w).2 ≤ 1) ∧
    (∀ o ∈ (mainEvent h locksOk cancelled imm now w).2,
      o.isTimeoutDeliv Dir.write = true →
      o.target = w.vc.write.vio.cont ∧
      ∀ o2 ∈ (mainEvent h locksOk cancelled imm now w).2,
        o2.isTimeoutDeliv Dir.read = true → o2.target ≠ o.target) := by
  cases locksOk with
  | false => simp [mainEvent]
  | true =>
    cases cancelled with
    | true => simp [mainEvent]
    | false =>
      cases imm with
      | true =>
        by_cases hsp : (w.vc.inactivityTimeoutIn = 0 ∨
            w.vc.nextInactivityTimeoutAt > now)
        · simp [mainEvent, hsp]
        · have hme : mainEvent h true false true now w =
              mainEventArmed h VC_EVENT_INACTIVITY_TIMEOUT
                { w with vc := { w.vc with nextInactivityTimeoutAt := 0 } } := by
            simp [mainEvent, hsp]
          rw [hme]
          exact mainEventArmed_props h VC_EVENT_INACTIVITY_TIMEOUT
            { w with vc := { w.vc with nextInactivityTimeoutAt := 0 } }
      | false =>
        have hme : mainEvent h true false false now w =
            mainEventArmed h VC_EVENT_ACTIVE_TIMEOUT
              { w with vc := { w.vc with nextActivityTimeoutAt := 0 } } := by
          simp [mainEvent]
        rw [hme]
        exact mainEventArmed_props h VC_EVENT_ACTIVE_TIMEOUT
          { w with vc := { w.vc with nextActivityTimeoutAt := 0 } }

/-- Witness for C7: an inactivity firing on the concrete VC delivers at
most one timeout to continuation 7. -/
theorem c7_witness :
    List.countP (timeoutDelivTo 7)
      (mainEvent passiveHandler true false true 5
        { w0 with vc := { w0.vc with
          inactivityTimeoutIn := 10, nextInactivityTimeoutAt := 5 } }).2 ≤ 1 := by
  exact (c7_timeout_once passiveHandler true false true 5
    { w0 with vc := { w0.vc with
      inactivityTimeoutIn := 10, nextInactivityTimeoutAt := 5 } }).1 7

/-- read_reschedule leaves both VIO progress counters alone. -/
theorem Inv_read_reschedule (w : World) (hw : Inv w) :
    Inv (read_reschedule w).1 := by
  unfold read_reschedule
  split <;> exact hw

/-- write_reschedule leaves both VIO progress counters alone. -/
theorem Inv_write_reschedule (w : World) (hw : Inv w) :
    Inv (write_reschedule w).1 := by
  unfold write_reschedule
  split <;> exact hw

/-- net_activity leaves both VIO progress counters alone. -/
theorem Inv_net_activity (now : Int) (w : World) (hw : Inv w) :
    Inv (net_activity now w) := by
  unfold net_activity
  split <;> exact hw

/-- free leaves both VIO progress counters alone. -/
theorem Inv_vcFree (w : World) (hw : Inv w) : Inv (vcFree w) := hw

/-- close_UnixNetVConnection leaves both VIO progress counters alone. -/
theorem Inv_close (w : World) (t : Option Nat) (hw : Inv w) :
    Inv (close_UnixNetVConnection w t).1 := by
  unfold close_UnixNetVConnection
  split
  · exact hw
  · dsimp only
    split <;> exact hw

/-- The common signal tail preserves the invariant. -/
theorem Inv_signalUpdateTail (d : Dir) (c : Option Nat) (ev : Nat)
    (w2 : World) (hw : Inv w2) : Inv (signalUpdateTail d c ev w2).1.1 := by
  unfold signalUpdateTail
  dsimp only
  split
  · exact Inv_close _ _ hw
  · exact hw

/-- read_signal_and_update preserves the invariant when the continuation
oracle does. -/
theorem Inv_read_signal_and_update (h : Handler) (Hh : PreservesInv h)
    (ev : Nat) (w : World) (hw : Inv w) :
    Inv (read_signal_and_update h ev w).1.1 := by
  unfold read_signal_and_update
  cases hc : w.vc.read.vio.cont with
  | some c =>
      simp only [hc]
      exact Inv_signalUpdateTail _ _ _ _ (Hh c ev _ hw)
  | none =>
      simp only [hc]
      split
      · exact Inv_signalUpdateTail _ _ _ _ hw
      · exact hw

/-- write_signal_and_update preserves the invariant when the continuation
oracle does. -/
theorem Inv_write_signal_and_update (h : Handler) (Hh : PreservesInv h)
    (ev : Nat) (w : World) (hw : Inv w) :
    Inv (write_signal_and_update h ev w).1.1 := by
  unfold write_signal_and_update
  cases hc : w.vc.write.vio.cont with
  | some c =>
      simp only [hc]
      exact Inv_signalUpdateTail _ _ _ _ (Hh c ev _ hw)
  | none =>
      simp only [hc]
      split
      · exact Inv_signalUpdateTail _ _ _ _ hw
      · exact hw

/-- read_signal_done preserves the invariant when the oracle does. -/
theorem Inv_read_signal_done (h : Handler) (Hh : PreservesInv h)
    (ev : Nat) (w : World) (hw : Inv w) :
    Inv (read_signal_done h ev w).1.1 := by
  have h1 : Inv (read_signal_and_update h ev
      { w with vc := { w.vc with
        read := { w.vc.read with enabled := false } } }).1.1 :=
    Inv_read_signal_and_update h Hh ev _ hw
  unfold read_signal_done
  dsimp only
  split
  · exact h1
  · exact Inv_read_reschedule _ h1

/-- write_signal_done preserves the invariant when the oracle does. -/
theorem Inv_write_signal_done (h : Handler) (Hh : PreservesInv h)
    (ev : Nat) (w : World) (hw : Inv w) :
    Inv (write_signal_done h ev w).1.1 := by
  have h1 : Inv (write_signal_and_update h ev
      { w with vc := { w.vc with
        write := { w.vc.write with enabled := false } } }).1.1 :=
    Inv_write_signal_and_update h Hh ev _ hw
  unfold write_signal_done
  dsimp only
  split
  · exact h1
  · exact Inv_write_reschedule _ h1

/-- read_signal_error preserves the invariant when the oracle does. -/
theorem Inv_read_signal_error (h : Handler) (Hh : PreservesInv h)
    (e : Int) (w : World) (hw : Inv w) :
    Inv (read_signal_error h e w).1.1 :=
  Inv_read_signal_done h Hh VC_EVENT_ERROR _ hw

/-- write_signal_error preserves the invariant when the oracle does. -/
theorem Inv_write_signal_error (h : Handler) (Hh : PreservesInv h)
    (e : Int) (w : World) (hw : Inv w) :
    Inv (write_signal_error h e w).1.1 :=
  Inv_write_signal_done h Hh VC_EVENT_ERROR _ hw

/-- readClassify preserves the invariant when the oracle does. -/
theorem Inv_readClassify (h : Handler) (Hh : PreservesInv h)
    (r : Int) (w : World) (hw : Inv w) : Inv (readClassify h r w).1 := by
  unfold readClassify
  split
  · exact hw
  · split
    · exact Inv_read_signal_done h Hh VC_EVENT_EOS _ hw
    · exact Inv_read_signal_error h Hh (-r) _ hw

/-- read_disable preserves the invariant. -/
theorem Inv_read_disable (w : World) (hw : Inv w) :
    Inv (read_disable w).1 := hw

/-- write_disable preserves the invariant. -/
theorem Inv_write_disable (w : World) (hw : Inv w) :
    Inv (write_disable w).1 := hw

/-- readFinish preserves the invariant. -/
theorem Inv_readFinish (w : World) (hw : Inv w) : Inv (readFinish w).1 := by
  unfold readFinish
  split
  · exact Inv_read_disable _ hw
  · exact Inv_read_reschedule _ hw

/-- With a nonnegative remaining amount, one iovec fill attempts between 0
and that amount. -/
theorem fillIovs_bounds (blocks : List Int) : ∀ (togo : Int) (n : Nat),
    0 ≤ togo →
    0 ≤ (fillIovs blocks togo n).1 ∧ (fillIovs blocks togo n).1 ≤ togo := by
  induction blocks with
  | nil =>
      intro togo n hg
      simp [fillIovs]
      omega
  | cons a bs ih =>
      intro togo n hg
      by_cases h16 : NET_MAX_IOV ≤ n
      · simp [fillIovs, h16]
        omega
      · by_cases ha : a > 0
        · by_cases hcap : a > togo
          · simp [fillIovs, h16, ha, hcap]
            omega
          · by_cases hge : a ≥ togo
            · simp [fillIovs, h16, ha, hcap, hge]
              omega
            · have ih2 := ih (togo - a) (n + 1) (by omega)
              simp [fillIovs, h16, ha, hcap, hge]
              omega
        · have ih2 := ih togo n hg
          simp [fillIovs, h16, ha]
          exact ih2

/-- With a nonpositive remaining amount, one iovec fill attempts either 0
or exactly that amount. -/
theorem fillIovs_nonpos (blocks : List Int) : ∀ (togo : Int) (n : Nat),
    togo ≤ 0 →
    (fillIovs blocks togo n).1 = 0 ∨ (fillIovs blocks togo n).1 = togo := by
  induction blocks with
  | nil =>
      intro togo n hg
      simp [fillIovs]
  | cons a bs ih =>
      intro togo n hg
      by_cases h16 : NET_MAX_IOV ≤ n
      · simp [fillIovs, h16]
      · by_cases ha : a > 0
        · have hcap : a > togo := by omega
          simp [fillIovs, h16, ha, hcap]
        · have ih2 := ih togo n hg
          simp [fillIovs, h16, ha]
          exact ih2

/-- A POSIX read returns at most the attempted amount when that amount is
nonnegative. -/
theorem kernelRead_le (v a : Int) (ha : 0 ≤ a) : kernelRead v a ≤ a := by
  unfold kernelRead
  split
  · omega
  · exact min_le_right v a

/-- A POSIX read of a nonpositive attempted amount returns nonpositive. -/
theorem kernelRead_nonpos (v a : Int) (ha : a ≤ 0) : kernelRead v a ≤ 0 := by
  unfold kernelRead
  split
  · omega
  · have := min_le_right v a
    omega

/-- The folded effective result of the vectored read loop never exceeds
toread when the loop starts below it from a nonnegative total. -/
theorem readLoop_fold_le (toread : Int) (sys : List Int) :
    ∀ (blocks : List Int) (total0 : Int), 0 ≤ total0 → total0 < toread →
    ∀ ex tr, readLoop toread sys blocks total0 = Option.some (ex, tr) →
    foldSummary ex.total ex.ratt ex.last ≤ toread := by
  induction sys with
  | nil =>
      intro blocks total0 h0 h1 ex tr hrun
      simp [readLoop] at hrun
  | cons v vs ih =>
      intro blocks total0 h0 h1 ex tr hrun
      have hfb := fillIovs_bounds blocks (toread - total0) 0 (by omega)
      have hkr := kernelRead_le v (fillIovs blocks (toread - total0) 0).1 hfb.1
      simp only [readLoop] at hrun
      by_cases hg : ((fillIovs blocks (toread - total0) 0).1 ≠ 0 ∧
          kernelRead v (fillIovs blocks (toread - total0) 0).1 =
            (fillIovs blocks (toread - total0) 0).1 ∧
          total0 + (fillIovs blocks (toread - total0) 0).1 < toread)
      · rw [if_pos hg] at hrun
        cases hrec : readLoop toread vs (fillIovs blocks (toread - total0) 0).2
            (total0 + (fillIovs blocks (toread - total0) 0).1) with
        | none => rw [hrec] at hrun; exact absurd hrun (by simp)
        | some p =>
            rw [hrec] at hrun
            obtain ⟨ex2, tr2⟩ := p
            simp only [Option.some.injEq, Prod.mk.injEq] at hrun
            obtain ⟨hex, htr⟩ := hrun
            rw [← hex]
            exact ih (fillIovs blocks (toread - total0) 0).2
              (total0 + (fillIovs blocks (toread - total0) 0).1)
              (by omega) hg.2.2 ex2 tr2 hrec
      · rw [if_neg hg] at hrun
        simp only [Option.some.injEq, Prod.mk.injEq] at hrun
        obtain ⟨hex, htr⟩ := hrun
        subst hex
        simp only [foldSummary]
        split_ifs <;> omega

/-- When toread is negative, the folded effective result of the read loop
started from 0 is nonpositive. -/
theorem readLoop_fold_nonpos (toread : Int) (sys blocks : List Int)
    (hneg : toread < 0) (ex : LoopExit) (tr : List Obs)
    (hrun : readLoop toread sys blocks 0 = Option.some (ex, tr)) :
    foldSummary ex.total ex.ratt ex.last ≤ 0 := by
  cases sys with
  | nil => simp [readLoop] at hrun
  | cons v vs =>
      have hfb := fillIovs_nonpos blocks (toread - 0) 0 (by omega)
      simp only [readLoop] at hrun
      rcases hfb with hf0 | hft
      · rw [hf0] at hrun
        have hkr := kernelRead_nonpos v 0 (by omega)
        simp only [ne_eq, not_true_eq_false, false_and, if_false] at hrun
        simp only [Option.some.injEq, Prod.mk.injEq] at hrun
        obtain ⟨hex, htr⟩ := hrun
        subst hex
        simp only [foldSummary]
        split_ifs <;> omega
      · rw [hft] at hrun
        have hkr := kernelRead_nonpos v (toread - 0) (by omega)
        have hnolt : ¬(0 + (toread - 0) < toread) := by omega
        by_cases hg : ((toread - 0) ≠ 0 ∧
            kernelRead v (toread - 0) = (toread - 0) ∧
            0 + (toread - 0) < toread)
        · exact absurd hg.2.2 hnolt
        · rw [if_neg hg] at hrun
          simp only [Option.some.injEq, Prod.mk.injEq] at hrun
          obtain ⟨hex, htr⟩ := hrun
          subst hex
          simp only [foldSummary]
          split_ifs <;> omega

set_option maxHeartbeats 1000000 in
/-- The syscall-loop stage of a read pass preserves the VIO progress
invariant whenever the continuation oracle does: the folded result r it
adds to ndone satisfies 0 lt r le toread le ntodo. -/
theorem Inv_readLoopStage (h : Handler) (Hh : PreservesInv h)
    (now : Int) (sys blocks : List Int) (m0 : Option Nat) (toread : Int)
    (w : World) (p : Step) (hw : Inv w)
    (hop : w.vc.read.vio.op = Op.read)
    (hpos : 0 < w.vc.read.vio.ntodo)
    (hle : toread ≤ w.vc.read.vio.ntodo) (hnz : toread ≠ 0)
    (hrun : readLoopStage h now sys blocks m0 toread w = Option.some p) :
    Inv p.1 := by
  unfold readLoopStage at hrun
  split at hrun
  · exact absurd hrun (by simp)
  · rename_i ex ltr hloop
    dsimp only at hrun
    have hr_le : foldSummary ex.total ex.ratt ex.last ≤
        w.vc.read.vio.ntodo := by
      by_cases htp : 0 < toread
      · exact le_trans
          (readLoop_fold_le toread sys blocks 0 (le_refl 0) htp ex ltr hloop)
          hle
      · have hneg := readLoop_fold_nonpos toread sys blocks
          (by omega) ex ltr hloop
        omega
    split at hrun
    · rw [Option.some_inj] at hrun
      subst hrun
      exact Inv_readClassify h Hh _ w hw
    · rename_i hrpos
      have hw1 : Inv { w with vc := { w.vc with
          read := { w.vc.read with vio := { w.vc.read.vio with
            ndone := w.vc.read.vio.ndone +
              foldSummary ex.total ex.ratt ex.last,
            buf := bufFill w.vc.read.vio.buf
              (foldSummary ex.total ex.ratt ex.last) } } } } := by
        refine ⟨Or.inl ?_, hw.2⟩
        have hnt : w.vc.read.vio.ntodo =
            w.vc.read.vio.nbytes - w.vc.read.vio.ndone := by
          unfold VioSt.ntodo
          rw [if_pos (Or.inl hop)]
        simp only []
        omega
      have hw2 := Inv_net_activity now _ hw1
      split at hrun
      · rw [Option.some_inj] at hrun
        subst hrun
        exact Inv_read_signal_done h Hh VC_EVENT_READ_COMPLETE _ hw2
      · split at hrun
        · rw [Option.some_inj] at hrun
          subst hrun
          exact Inv_read_signal_and_update h Hh VC_EVENT_READ_READY _ hw2
        · split at hrun
          · rw [Option.some_inj] at hrun
            subst hrun
            exact Inv_read_reschedule _
              (Inv_read_signal_and_update h Hh VC_EVENT_READ_READY _ hw2)
          · rw [Option.some_inj] at hrun
            subst hrun
            exact Inv_readFinish _
              (Inv_read_signal_and_update h Hh VC_EVENT_READ_READY _ hw2)

set_option maxHeartbeats 1000000 in
/-- One read pass preserves the VIO progress invariant whenever the
continuation oracle does. -/
theorem Inv_read_from_net (h : Handler) (Hh : PreservesInv h)
    (lockOk : Bool) (t : Nat) (now : Int) (sys blocks : List Int) (w : World)
    (p : Step) (hw : Inv w)
    (hrun : read_from_net h lockOk t now sys blocks w = Option.some p) :
    Inv p.1 := by
  unfold read_from_net at hrun
  split at hrun
  · rw [Option.some_inj] at hrun
    subst hrun
    exact Inv_read_reschedule w hw
  · split at hrun
    · rw [Option.some_inj] at hrun
      subst hrun
      exact Inv_close w (Option.some t) hw
    · split at hrun
      · rw [Option.some_inj] at hrun
        subst hrun
        exact Inv_read_disable w hw
      · rename_i hen
        dsimp only at hrun
        split at hrun
        · rw [Option.some_inj] at hrun
          subst hrun
          exact Inv_read_disable w hw
        · rename_i hntodo
          have hop : w.vc.read.vio.op = Op.read := by
            simp only [not_or, not_not] at hen
            exact hen.2
          split at hrun
          · split at hrun
            · rename_i hnz
              exact Inv_readLoopStage h Hh now sys blocks _ _ w p hw hop
                (by omega) (le_refl _) hnz hrun
            · rw [Option.some_inj] at hrun
              subst hrun
              exact Inv_readFinish w hw
          · rename_i hgt
            split at hrun
            · rename_i hnz
              exact Inv_readLoopStage h Hh now sys blocks _ _ w p hw hop
                (by omega) (by omega) hnz hrun
            · rw [Option.some_inj] at hrun
              subst hrun
              exact Inv_readFinish w hw

/-- A POSIX write returns at most the attempted amount when that amount is
nonnegative. -/
theorem kernelWrite_le (v a : Int) (ha : 0 ≤ a) : kernelWrite v a ≤ a := by
  unfold kernelWrite
  split
  · omega
  · exact min_le_right v a

/-- With a nonnegative remaining amount, one write iovec fill attempts
between 0 and that amount. -/
theorem writeFill_bounds (blocks : List Int) : ∀ (wavail offset : Int)
    (n : Nat), 0 ≤ wavail →
    0 ≤ (writeFill blocks wavail offset n).1 ∧
    (writeFill blocks wavail offset n).1 ≤ wavail := by
  induction blocks with
  | nil =>
      intro wavail offset n hg
      simp [writeFill]
      omega
  | cons b bs ih =>
      intro wavail offset n hg
      by_cases h16 : NET_MAX_IOV ≤ n
      · simp [writeFill, h16]
        omega
      · by_cases hl : b - offset ≤ 0
        · have ih2 := ih wavail (offset - b) n hg
          have hneg : -(b - offset) = offset - b := by ring
          simp [writeFill, h16, hl, hneg]
          exact ih2
        · by_cases hcap : b - offset > wavail
          · have hgt : ¬b - offset ≤ 0 := hl
            by_cases hz : wavail = 0
            · subst hz
              have hgt2 : b - offset > 0 := by omega
              simp [writeFill, h16, hl, hgt2]
            · have ih2 := ih 0 0 (n + 1) (le_refl 0)
              simp [writeFill, h16, hl, hcap, hz]
              omega
          · have hz : ¬(b - offset = 0) := by omega
            have ih2 := ih (wavail - (b - offset)) 0 (n + 1) (by omega)
            simp [writeFill, h16, hl, hcap, hz]
            omega

/-- The folded effective result of the vectored write loop never exceeds
towrite when the loop starts below it from a nonnegative total. -/
theorem writeLoop_fold_le (towrite : Int) (sys : List Int) :
    ∀ (blocks : List Int) (offset total0 : Int), 0 ≤ total0 →
    total0 < towrite →
    ∀ ex tr, writeLoop towrite sys blocks offset total0 =
      Option.some (ex, tr) →
    foldSummary ex.total ex.ratt ex.last ≤ towrite := by
  induction sys with
  | nil =>
      intro blocks offset total0 h0 h1 ex tr hrun
      simp [writeLoop] at hrun
  | cons v vs ih =>
      intro blocks offset total0 h0 h1 ex tr hrun
      have hfb := writeFill_bounds blocks (towrite - total0) offset 0
        (by omega)
      have hkr := kernelWrite_le v
        (writeFill blocks (towrite - total0) offset 0).1 hfb.1
      simp only [writeLoop] at hrun
      by_cases hg : (kernelWrite v
            (writeFill blocks (towrite - total0) offset 0).1 =
          (writeFill blocks (towrite - total0) offset 0).1 ∧
          total0 + (writeFill blocks (towrite - total0) offset 0).1 < towrite)
      · rw [if_pos hg] at hrun
        cases hrec : writeLoop towrite vs
            (writeFill blocks (towrite - total0) offset 0).2.1
            (writeFill blocks (towrite - total0) offset 0).2.2
            (total0 + (writeFill blocks (towrite - total0) offset 0).1) with
        | none => rw [hrec] at hrun; exact absurd hrun (by simp)
        | some p =>
            rw [hrec] at hrun
            obtain ⟨ex2, tr2⟩ := p
            simp only [Option.some.injEq, Prod.mk.injEq] at hrun
            obtain ⟨hex, htr⟩ := hrun
            rw [← hex]
            exact ih (writeFill blocks (towrite - total0) offset 0).2.1
              (writeFill blocks (towrite - total0) offset 0).2.2
              (total0 + (writeFill blocks (towrite - total0) offset 0).1)
              (by omega) hg.2 ex2 tr2 hrec
      · rw [if_neg hg] at hrun
        simp only [Option.some.injEq, Prod.mk.injEq] at hrun
        obtain ⟨hex, htr⟩ := hrun
        subst hex
        simp only [foldSummary]
        split_ifs <;> omega

/-- A strictly positive ntodo means the VIO op is READ or WRITE, so ntodo
is literally nbytes - ndone. -/
theorem ntodo_pos_sub (v : VioSt) (hp : 0 < v.ntodo) :
    v.ntodo = v.nbytes - v.ndone := by
  by_cases hop : (v.op = Op.read ∨ v.op = Op.write)
  · simp [VioSt.ntodo, hop]
  · simp [VioSt.ntodo, hop] at hp

/-- The final disable-or-reschedule stage of a write pass preserves the
invariant. -/
theorem Inv_writeTail (w4 : World) (needs : Nat) (acc : List Obs) (p : Step)
    (hw : Inv w4)
    (hrun : writeAfterInvite.writeTail w4 needs acc = Option.some p) :
    Inv p.1 := by
  unfold writeAfterInvite.writeTail at hrun
  dsimp only at hrun
  split at hrun
  · rw [Option.some_inj] at hrun
    subst hrun
    exact Inv_write_disable _ hw
  · split at hrun <;> split at hrun <;>
      (rw [Option.some_inj] at hrun; subst hrun)
    · exact Inv_read_reschedule _ (Inv_write_reschedule _ hw)
    · exact Inv_read_reschedule w4 hw
    · exact Inv_write_reschedule _ hw
    · exact hw

/-- The post-success signalling stage of a write pass preserves the
invariant when the oracle does. -/
theorem Inv_writeRemainder (h : Handler) (Hh : PreservesInv h)
    (signalled : Bool) (m0 : Option Nat) (wbe needs : Nat) (ltr : List Obs)
    (w3 : World) (p : Step) (hw : Inv w3)
    (hrun : writeAfterInvite.writeRemainder h signalled m0 wbe needs ltr w3 =
      Option.some p) :
    Inv p.1 := by
  unfold writeAfterInvite.writeRemainder at hrun
  dsimp only at hrun
  split at hrun
  · split at hrun
    · rw [Option.some_inj] at hrun
      subst hrun
      exact Inv_write_signal_and_update h Hh _ _ hw
    · cases hrem : writeAfterInvite.writeTail
          (write_signal_and_update h wbe w3).1.1 needs
          (ltr ++ (write_signal_and_update h wbe w3).1.2) with
      | none => rw [hrem] at hrun; exact absurd hrun (by simp)
      | some p2 =>
          rw [hrem] at hrun
          rw [Option.some_inj] at hrun
          subst hrun
          exact Inv_writeTail _ _ _ _
            (Inv_write_signal_and_update h Hh _ _ hw) hrem
  · split at hrun
    · split at hrun
      · rw [Option.some_inj] at hrun
        subst hrun
        exact Inv_write_signal_and_update h Hh _ _ hw
      · split at hrun
        · rw [Option.some_inj] at hrun
          subst hrun
          exact Inv_write_reschedule _
            (Inv_write_signal_and_update h Hh _ _ hw)
        · cases hrem : writeAfterInvite.writeTail
              (write_signal_and_update h VC_EVENT_WRITE_READY w3).1.1 needs
              (ltr ++ (write_signal_and_update h VC_EVENT_WRITE_READY
                w3).1.2) with
          | none => rw [hrem] at hrun; exact absurd hrun (by simp)
          | some p2 =>
              rw [hrem] at hrun
              rw [Option.some_inj] at hrun
              subst hrun
              exact Inv_writeTail _ _ _ _
                (Inv_write_signal_and_update h Hh _ _ hw) hrem
    · cases hrem : writeAfterInvite.writeTail w3 needs ltr with
      | none => rw [hrem] at hrun; exact absurd hrun (by simp)
      | some p2 =>
          rw [hrem] at hrun
          rw [Option.some_inj] at hrun
          subst hrun
          exact Inv_writeTail _ _ _ _ hw hrem

/-- The write attempt amount never exceeds the write VIO's ntodo. -/
theorem writeTowrite_le (w : World) : writeTowrite w ≤ w.vc.write.vio.ntodo := by
  unfold writeTowrite
  split_ifs with hh
  · omega
  · omega

set_option maxHeartbeats 1000000 in
/-- The loop-and-classify stage of a write pass preserves the invariant
when the oracle does: the folded result r it adds to ndone satisfies
0 lt r le towrite le ntodo. -/
theorem Inv_writeAfterInvite (h : Handler) (Hh : PreservesInv h)
    (now : Int) (signalled : Bool) (m0 : Option Nat) (sys blocks : List Int)
    (offset towrite : Int) (w : World) (p : Step) (hw : Inv w)
    (hto : towrite ≤ w.vc.write.vio.ntodo)
    (hrun : writeAfterInvite h now signalled m0 sys blocks offset towrite w =
      Option.some p) :
    Inv p.1 := by
  unfold writeAfterInvite at hrun
  split at hrun
  · rw [Option.some_inj] at hrun
    subst hrun
    exact Inv_write_disable _ hw
  · rename_i htw
    split at hrun
    · exact absurd hrun (by simp)
    · rename_i ex ltr hloop
      dsimp only at hrun
      have hloop2 : writeLoop towrite sys blocks offset 0 =
          Option.some (ex, ltr) := hloop
      have hfold : foldSummary ex.total ex.ratt ex.last ≤ towrite :=
        writeLoop_fold_le towrite sys blocks offset 0 (le_refl 0)
          (by omega) ex ltr hloop2
      split at hrun
      · split at hrun
        · split at hrun <;> split at hrun <;>
            (rw [Option.some_inj] at hrun; subst hrun)
          · exact Inv_read_reschedule _ (Inv_write_reschedule _ hw)
          · exact Inv_read_reschedule _ hw
          · exact Inv_write_reschedule _ hw
          · exact hw
        · split at hrun
          · rw [Option.some_inj] at hrun
            subst hrun
            exact Inv_write_signal_done h Hh VC_EVENT_EOS _ hw
          · rw [Option.some_inj] at hrun
            subst hrun
            exact Inv_write_signal_error h Hh _ _ hw
      · rename_i hrpos
        have hnt : w.vc.write.vio.ntodo =
            w.vc.write.vio.nbytes - w.vc.write.vio.ndone :=
          ntodo_pos_sub _ (by omega)
        have hw1 : Inv { w with vc := { w.vc with
            write := { w.vc.write with vio := { w.vc.write.vio with
              ndone := w.vc.write.vio.ndone +
                foldSummary ex.total ex.ratt ex.last,
              buf := bufConsume w.vc.write.vio.buf
                (foldSummary ex.total ex.ratt ex.last) } } } } := by
          refine ⟨hw.1, Or.inl ?_⟩
          simp only []
          omega
        split at hrun
        · split at hrun
          · rw [Option.some_inj] at hrun
            subst hrun
            exact Inv_write_signal_done h Hh VC_EVENT_WRITE_COMPLETE _
              (Inv_net_activity now _ hw1)
          · rename_i hcmpl
            cases hrem : writeAfterInvite.writeRemainder h signalled m0
                w.vc.wbeEvent EVENTIO_WRITE ltr
                (net_activity now { w with vc := { w.vc with
                  wbeEvent := 0,
                  write := { w.vc.write with vio := { w.vc.write.vio with
                    ndone := w.vc.write.vio.ndone +
                      foldSummary ex.total ex.ratt ex.last,
                    buf := bufConsume w.vc.write.vio.buf
                      (foldSummary ex.total ex.ratt ex.last) } } } }) with
            | none => rw [hrem] at hrun; exact absurd hrun (by simp)
            | some p2 =>
                rw [hrem] at hrun
                rw [Option.some_inj] at hrun
                subst hrun
                refine Inv_writeRemainder h Hh signalled m0 _ _ _ _ _
                  ?_ hrem
                exact Inv_net_activity now _ hw1
        · split at hrun
          · rw [Option.some_inj] at hrun
            subst hrun
            exact Inv_write_signal_done h Hh VC_EVENT_WRITE_COMPLETE _
              (Inv_net_activity now _ hw1)
          · rename_i hcmpl
            cases hrem : writeAfterInvite.writeRemainder h signalled m0
                w.vc.wbeEvent EVENTIO_WRITE ltr
                (net_activity now { w with vc := { w.vc with
                  write := { w.vc.write with vio := { w.vc.write.vio with
                    ndone := w.vc.write.vio.ndone +
                      foldSummary ex.total ex.ratt ex.last,
                    buf := bufConsume w.vc.write.vio.buf
                      (foldSummary ex.total ex.ratt ex.last) } } } }) with
            | none => rw [hrem] at hrun; exact absurd hrun (by simp)
            | some p2 =>
                rw [hrem] at hrun
                rw [Option.some_inj] at hrun
                subst hrun
                refine Inv_writeRemainder h Hh signalled m0 _ _ _ _ _
                  ?_ hrem
                exact Inv_net_activity now _ hw1

/-- The handshake-hook dispatch preserves the invariant when the oracle
does. -/
theorem Inv_sslHandshakeBranch (h : Handler) (Hh : PreservesInv h)
    (ssl : SslSt) (w : World) (hw : Inv w) :
    Inv (write_to_net.sslHandshakeBranch h ssl w).1 := by
  unfold write_to_net.sslHandshakeBranch
  cases ssl.ret
  · exact Inv_write_signal_error h Hh _ _ hw
  · exact Inv_read_reschedule _ hw
  · exact Inv_read_reschedule _ hw
  · exact Inv_write_reschedule _ hw
  · exact Inv_write_reschedule _ hw
  · dsimp only
    split <;> exact hw
  · exact Inv_write_reschedule _ hw

set_option maxHeartbeats 1000000 in
/-- One write pass preserves the VIO progress invariant whenever the
continuation oracle does. -/
theorem Inv_write_to_net (h : Handler) (Hh : PreservesInv h)
    (lockOk : Bool) (now : Int) (ssl : SslSt) (sys blocks : List Int)
    (offset : Int) (w : World) (p : Step) (hw : Inv w)
    (hrun : write_to_net h lockOk now ssl sys blocks offset w =
      Option.some p) :
    Inv p.1 := by
  unfold write_to_net at hrun
  split at hrun
  · rw [Option.some_inj] at hrun
    subst hrun
    exact Inv_write_reschedule w hw
  · split at hrun
    · rw [Option.some_inj] at hrun
      subst hrun
      exact Inv_sslHandshakeBranch h Hh ssl w hw
    · split at hrun
      · rw [Option.some_inj] at hrun
        subst hrun
        exact Inv_write_disable w hw
      · dsimp only at hrun
        split at hrun
        · rw [Option.some_inj] at hrun
          subst hrun
          exact Inv_write_disable w hw
        · split at hrun
          · split at hrun
            · rw [Option.some_inj] at hrun
              subst hrun
              exact Inv_write_signal_and_update h Hh _ _ hw
            · have hwq := Inv_write_signal_and_update h Hh
                VC_EVENT_WRITE_READY w hw
              split at hrun
              · rw [Option.some_inj] at hrun
                subst hrun
                exact Inv_write_disable _ hwq
              · cases hWA : writeAfterInvite h now true
                    w.vc.write.vio.mutexId sys blocks offset
                    (writeTowrite
                      (write_signal_and_update h VC_EVENT_WRITE_READY
                        w).1.1)
                    (write_signal_and_update h VC_EVENT_WRITE_READY w).1.1
                    with
                | none => rw [hWA] at hrun; exact absurd hrun (by simp)
                | some p2 =>
                    rw [hWA] at hrun
                    rw [Option.some_inj] at hrun
                    subst hrun
                    exact Inv_writeAfterInvite h Hh now true _ sys blocks
                      offset _ _ p2 hwq (writeTowrite_le _) hWA
          · exact Inv_writeAfterInvite h Hh now false _ sys blocks offset
              _ _ p hw (writeTowrite_le _) hrun

/-- C3: the VIO progress invariant — in each direction ndone stays at most
nbytes unless nbytes is 0 — is preserved by every read pass and every write
pass, for any continuation oracle that preserves it: a successful pass
increments ndone by a folded r with 0 lt r le toread (resp. towrite) le
ntodo = nbytes - ndone. -/
theorem c3_progress_invariant (h : Handler) (Hh : PreservesInv h) :
    (∀ (lockOk : Bool) (t : Nat) (now : Int) (sys blocks : List Int)
        (w : World) (p : Step), Inv w →
        read_from_net h lockOk t now sys blocks w = Option.some p →
        Inv p.1) ∧
    (∀ (lockOk : Bool) (now : Int) (ssl : SslSt) (sys blocks : List Int)
        (offset : Int) (w : World) (p : Step), Inv w →
        write_to_net h lockOk now ssl sys blocks offset w = Option.some p →
        Inv p.1) := by
  constructor
  · intro lockOk t now sys blocks w p hw hrun
    exact Inv_read_from_net h Hh lockOk t now sys blocks w p hw hrun
  · intro lockOk now ssl sys blocks offset w p hw hrun
    exact Inv_write_to_net h Hh lockOk now ssl sys blocks offset w p hw hrun

/-- Witness for C3: a concrete read pass that moves 5 bytes keeps the
invariant. -/
theorem c3_witness :
    Inv ((read_from_net passiveHandler true 0 0 [5] [64] w0).getD
      (w0, [])).1 := by
  exact (c3_progress_invariant passiveHandler
      (fun _ _ _ hw => hw)).1 true 0 0 [5] [64] w0
    ((read_from_net passiveHandler true 0 0 [5] [64] w0).getD (w0, []))
    ⟨Or.inl (by decide), Or.inl (by decide)⟩ (by decide)

/-- Witness for C10 on a concretely closed VC. -/
theorem c10_witness :
    do_io_read (Option.some 3) 4 10 true 0 0 true true
      { w0 with vc := { w0.vc with closed := 1 } } =
      (({ w0 with vc := { w0.vc with closed := 1 } }, []), false) := by
  exact (c10_closed_refused { w0 with vc := { w0.vc with closed := 1 } }
    (Option.some 3) 4 10 true 0 0 true true (by decide)).1

end UnixNet
